import Mathlib

/-! Slope limiter for embedded-boundary cells (`hydro_slope_limiter_K.H`).

A shallow embedding of the two device functions of
`src/Redistribution/hydro_slope_limiter_K.H`:

* `amrex_calc_alpha_stencil`    (source lines 14-29)
* `amrex_calc_centroid_limiter` (source lines 31-85), once for
  `AMREX_SPACEDIM == 2` and once for `AMREX_SPACEDIM == 3`.

`amrex::Real` is read as an arbitrary linearly ordered field `K` (exact
arithmetic, so the statements hold over `ℝ` and over `ℚ`); every definition is
computable and can be evaluated at `K = ℚ`. `Array4` views and the `EBCellFlag`
record belong to the AMReX library and are taken as plain total functions of the
integer indices; cell indices are unbounded integers. The two quotients of
`amrex_calc_alpha_stencil` are taken in branches where the divisor is non-zero.

A second reading of the 2D code, with `amrex::Real` as IEEE double precision
(definitions ending in `_fp`), shows where rounding separates the program from the
exact reading.
-/

namespace HydroSlopeLimiter

variable {K : Type} [LinearOrderedField K]

/-! ## Data model -/

/-- Read-only view `amrex::Array4<amrex::Real const>`: a value for every index
`(i,j,k,n)`. -/
abbrev Array4 (K : Type) : Type := Int → Int → Int → Int → K

/-- Connectivity record `amrex::EBCellFlag`; only `isConnected(ii,jj,kk)` is used by
the limiter. -/
structure EBCellFlag where
  /-- Method `isConnected(ii,jj,kk)` of the source: is the cell connected to its
  neighbour at that offset. -/
  isConnected : Int → Int → Int → Bool

/-- Read-only view `amrex::Array4<amrex::EBCellFlag const>`, indexed `flag(i,j,k)`. -/
abbrev FlagArray : Type := Int → Int → Int → EBCellFlag

/-- Constant `epsilon = 1.e-12` of the anonymous namespace (source line 11). -/
def epsilon : K := 1 / 10 ^ 12

/-! ## `amrex_calc_alpha_stencil` (source lines 14-29) -/

/-- Function `amrex_calc_alpha_stencil(q_hat, q_max, q_min, state)`. -/
def amrex_calc_alpha_stencil (q_hat q_max q_min state : K) : K :=
  let small : K := epsilon * max |q_max| |q_min|
  if (q_hat - state) > small then
    min 1 ((q_max - state) / (q_hat - state))
  else if (q_hat - state) < -small then
    min 1 ((q_min - state) / (q_hat - state))
  else
    1

/-! ## `amrex_calc_centroid_limiter` (source lines 31-85) -/

/-- Local `delta_x` (source line 58). -/
def delta_x (i j k : Int) (ccent : Array4 K) (ii jj kk : Int) : K :=
  ccent (i + ii) (j + jj) (k + kk) 0 - ccent i j k 0 + (ii : K)

/-- Local `delta_y` (source line 59). -/
def delta_y (i j k : Int) (ccent : Array4 K) (ii jj kk : Int) : K :=
  ccent (i + ii) (j + jj) (k + kk) 1 - ccent i j k 1 + (jj : K)

/-- Local `delta_z` (source line 60, three dimensions only). -/
def delta_z (i j k : Int) (ccent : Array4 K) (ii jj kk : Int) : K :=
  ccent (i + ii) (j + jj) (k + kk) 2 - ccent i j k 2 + (kk : K)

/-- Local `q_hat` for `AMREX_SPACEDIM == 2` (source lines 62-63). -/
def q_hat_2d (i j k n : Int) (state : Array4 K) (slopes : Fin 2 → K)
    (ccent : Array4 K) (ii jj kk : Int) : K :=
  state i j k n + delta_x i j k ccent ii jj kk * slopes 0
    + delta_y i j k ccent ii jj kk * slopes 1

/-- Local `q_hat` for `AMREX_SPACEDIM == 3` (source lines 62-64). -/
def q_hat_3d (i j k n : Int) (state : Array4 K) (slopes : Fin 3 → K)
    (ccent : Array4 K) (ii jj kk : Int) : K :=
  state i j k n + delta_x i j k ccent ii jj kk * slopes 0
    + delta_y i j k ccent ii jj kk * slopes 1
    + delta_z i j k ccent ii jj kk * slopes 2

/-- Local `q_max` (source line 66). -/
def q_max (i j k n : Int) (state : Array4 K) (ii jj kk : Int) : K :=
  max (state (i + ii) (j + jj) (k + kk) n) (state i j k n)

/-- Local `q_min` (source line 67). -/
def q_min (i j k n : Int) (state : Array4 K) (ii jj kk : Int) : K :=
  min (state (i + ii) (j + jj) (k + kk) n) (state i j k n)

/-- Condition of the inner `if` (source line 69): the prediction `q_hat` leaves the
pairwise bounds by more than the relative tolerance. -/
def out_of_bounds (q_hat q_max q_min : K) : Prop :=
  q_hat - q_max > |epsilon * q_max| ∨ q_hat - q_min < -1 * |epsilon * q_min|

instance (q_hat q_max q_min : K) : Decidable (out_of_bounds q_hat q_max q_min) := by
  unfold out_of_bounds; infer_instance

/-- Body of the innermost loop for `AMREX_SPACEDIM == 2` (source lines 52-79) at the
offset `(ii,jj,kk)`; the pair carries the locals `(xalpha, yalpha)`. -/
def limiter_body_2d (i j k n : Int) (state : Array4 K) (flag : FlagArray)
    (slopes : Fin 2 → K) (ccent : Array4 K) (ii jj kk : Int) (acc : K × K) : K × K :=
  let xalpha := acc.1
  let yalpha := acc.2
  let alpha := max xalpha yalpha
  if (flag i j k).isConnected ii jj kk = true ∧ alpha > 0 then
    let dx := delta_x i j k ccent ii jj kk
    let dy := delta_y i j k ccent ii jj kk
    let q_hat := q_hat_2d i j k n state slopes ccent ii jj kk
    let qmax := q_max i j k n state ii jj kk
    let qmin := q_min i j k n state ii jj kk
    if out_of_bounds q_hat qmax qmin then
      let new_lim := amrex_calc_alpha_stencil q_hat qmax qmin (state i j k n)
      let xalpha := if |dx| > epsilon then min xalpha new_lim else xalpha
      let yalpha := if |dy| > epsilon then min yalpha new_lim else yalpha
      (xalpha, yalpha)
    else
      (xalpha, yalpha)
  else
    (xalpha, yalpha)

/-- Body of the innermost loop for `AMREX_SPACEDIM == 3` (source lines 52-79) at the
offset `(ii,jj,kk)`; the triple carries the locals `(xalpha, yalpha, zalpha)`. -/
def limiter_body_3d (i j k n : Int) (state : Array4 K) (flag : FlagArray)
    (slopes : Fin 3 → K) (ccent : Array4 K) (ii jj kk : Int) (acc : K × K × K) :
    K × K × K :=
  let xalpha := acc.1
  let yalpha := acc.2.1
  let zalpha := acc.2.2
  let alpha := max xalpha yalpha
  let alpha := max alpha zalpha
  if (flag i j k).isConnected ii jj kk = true ∧ alpha > 0 then
    let dx := delta_x i j k ccent ii jj kk
    let dy := delta_y i j k ccent ii jj kk
    let dz := delta_z i j k ccent ii jj kk
    let q_hat := q_hat_3d i j k n state slopes ccent ii jj kk
    let qmax := q_max i j k n state ii jj kk
    let qmin := q_min i j k n state ii jj kk
    if out_of_bounds q_hat qmax qmin then
      let new_lim := amrex_calc_alpha_stencil q_hat qmax qmin (state i j k n)
      let xalpha := if |dx| > epsilon then min xalpha new_lim else xalpha
      let yalpha := if |dy| > epsilon then min yalpha new_lim else yalpha
      let zalpha := if |dz| > epsilon then min zalpha new_lim else zalpha
      (xalpha, yalpha, zalpha)
    else
      (xalpha, yalpha, zalpha)
  else
    (xalpha, yalpha, zalpha)

/-- Values taken by a loop counter `for (int c(-1); c <= 1; c++)`. -/
def loop_range : List Int := [-1, 0, 1]

/-- Locals `(xalpha, yalpha)` at the end of the loops for `AMREX_SPACEDIM == 2`:
`kk` is fixed to `0` (source line 45), `jj` is the outer and `ii` the inner loop. -/
def centroid_limiter_scan_2d (i j k n : Int) (state : Array4 K) (flag : FlagArray)
    (slopes : Fin 2 → K) (ccent : Array4 K) : K × K :=
  loop_range.foldl
    (fun acc jj =>
      loop_range.foldl
        (fun acc ii => limiter_body_2d i j k n state flag slopes ccent ii jj 0 acc) acc)
    (1, 1)

/-- Locals `(xalpha, yalpha, zalpha)` at the end of the loops for
`AMREX_SPACEDIM == 3`: `kk` outermost, then `jj`, then `ii` (source lines 47-51). -/
def centroid_limiter_scan_3d (i j k n : Int) (state : Array4 K) (flag : FlagArray)
    (slopes : Fin 3 → K) (ccent : Array4 K) : K × K × K :=
  loop_range.foldl
    (fun acc kk =>
      loop_range.foldl
        (fun acc jj =>
          loop_range.foldl
            (fun acc ii => limiter_body_3d i j k n state flag slopes ccent ii jj kk acc)
            acc)
        acc)
    (1, 1, 1)

/-- Function `amrex_calc_centroid_limiter` compiled with `AMREX_SPACEDIM == 2`; the
result is the array `{xalpha, yalpha}`. -/
def amrex_calc_centroid_limiter_2d (i j k n : Int) (state : Array4 K) (flag : FlagArray)
    (slopes : Fin 2 → K) (ccent : Array4 K) : Fin 2 → K :=
  let r := centroid_limiter_scan_2d i j k n state flag slopes ccent
  ![r.1, r.2]

/-- Function `amrex_calc_centroid_limiter` compiled with `AMREX_SPACEDIM == 3`; the
result is the array `{xalpha, yalpha, zalpha}`. -/
def amrex_calc_centroid_limiter_3d (i j k n : Int) (state : Array4 K) (flag : FlagArray)
    (slopes : Fin 3 → K) (ccent : Array4 K) : Fin 3 → K :=
  let r := centroid_limiter_scan_3d i j k n state flag slopes ccent
  ![r.1, r.2.1, r.2.2]

/-! ## Vocabulary used to state the properties

Named forms of the locals of the loop body, the list of offsets the loops visit,
and the running minimum the loops compute. -/

/-- Offsets `(ii,jj,kk)` in the order the loops of `AMREX_SPACEDIM == 2` visit them
(`kk = 0`, `jj` outer, `ii` inner). -/
def stencil_2d : List (Int × Int × Int) :=
  loop_range.flatMap fun jj => loop_range.map fun ii => (ii, jj, 0)

/-- Offsets `(ii,jj,kk)` in the order the loops of `AMREX_SPACEDIM == 3` visit them
(`kk` outer, then `jj`, then `ii`). -/
def stencil_3d : List (Int × Int × Int) :=
  loop_range.flatMap fun kk =>
    loop_range.flatMap fun jj => loop_range.map fun ii => (ii, jj, kk)

/-- Displacements `(delta_x, delta_y)` of source lines 58-59 as an array over the
axes. -/
def delta_2d (i j k : Int) (ccent : Array4 K) (ii jj kk : Int) : Fin 2 → K :=
  ![delta_x i j k ccent ii jj kk, delta_y i j k ccent ii jj kk]

/-- Displacements `(delta_x, delta_y, delta_z)` of source lines 58-60 as an array
over the axes. -/
def delta_3d (i j k : Int) (ccent : Array4 K) (ii jj kk : Int) : Fin 3 → K :=
  ![delta_x i j k ccent ii jj kk, delta_y i j k ccent ii jj kk,
    delta_z i j k ccent ii jj kk]

/-- Local `new_lim` (source line 71) at the offset `(ii,jj,kk)`, two dimensions. -/
def new_lim_2d (i j k n : Int) (state : Array4 K) (slopes : Fin 2 → K)
    (ccent : Array4 K) (ii jj kk : Int) : K :=
  amrex_calc_alpha_stencil (q_hat_2d i j k n state slopes ccent ii jj kk)
    (q_max i j k n state ii jj kk) (q_min i j k n state ii jj kk) (state i j k n)

/-- Local `new_lim` (source line 71) at the offset `(ii,jj,kk)`, three dimensions. -/
def new_lim_3d (i j k n : Int) (state : Array4 K) (slopes : Fin 3 → K)
    (ccent : Array4 K) (ii jj kk : Int) : K :=
  amrex_calc_alpha_stencil (q_hat_3d i j k n state slopes ccent ii jj kk)
    (q_max i j k n state ii jj kk) (q_min i j k n state ii jj kk) (state i j k n)

/-- Conditions of source lines 56 (connectivity), 69 (bounds test) and 73-74
(displacement along axis `a`) under which the offset `(ii,jj,kk)` folds `new_lim`
into the scale of axis `a`; the `alpha > 0.0` pruning of line 56 is left out. -/
def tightens_2d (i j k n : Int) (state : Array4 K) (flag : FlagArray)
    (slopes : Fin 2 → K) (ccent : Array4 K) (ii jj kk : Int) (a : Fin 2) : Prop :=
  (flag i j k).isConnected ii jj kk = true ∧
    out_of_bounds (q_hat_2d i j k n state slopes ccent ii jj kk)
      (q_max i j k n state ii jj kk) (q_min i j k n state ii jj kk) ∧
    |delta_2d i j k ccent ii jj kk a| > epsilon

instance (i j k n : Int) (state : Array4 K) (flag : FlagArray) (slopes : Fin 2 → K)
    (ccent : Array4 K) (ii jj kk : Int) (a : Fin 2) :
    Decidable (tightens_2d i j k n state flag slopes ccent ii jj kk a) := by
  unfold tightens_2d; infer_instance

/-- Conditions of source lines 56 (connectivity), 69 (bounds test) and 73-76
(displacement along axis `a`) under which the offset `(ii,jj,kk)` folds `new_lim`
into the scale of axis `a`; the `alpha > 0.0` pruning of line 56 is left out. -/
def tightens_3d (i j k n : Int) (state : Array4 K) (flag : FlagArray)
    (slopes : Fin 3 → K) (ccent : Array4 K) (ii jj kk : Int) (a : Fin 3) : Prop :=
  (flag i j k).isConnected ii jj kk = true ∧
    out_of_bounds (q_hat_3d i j k n state slopes ccent ii jj kk)
      (q_max i j k n state ii jj kk) (q_min i j k n state ii jj kk) ∧
    |delta_3d i j k ccent ii jj kk a| > epsilon

instance (i j k n : Int) (state : Array4 K) (flag : FlagArray) (slopes : Fin 3 → K)
    (ccent : Array4 K) (ii jj kk : Int) (a : Fin 3) :
    Decidable (tightens_3d i j k n state flag slopes ccent ii jj kk a) := by
  unfold tightens_3d; infer_instance

/-- Running minimum: starting from `init`, every element `o` of the list with `p o`
replaces the accumulator by `min acc (v o)`, as lines 73-76 do with
`std::min(xalpha,new_lim)`. -/
def foldMin {β : Type} (p : β → Prop) [DecidablePred p] (v : β → K) (l : List β)
    (init : K) : K :=
  l.foldl (fun acc o => if p o then min acc (v o) else acc) init

/-! ## Guarded division

The same evaluator with every quotient taken through a division that reports a zero
divisor. -/

/-- Quotient `a / b`, or `none` when the divisor is zero. -/
def checked_div (a b : K) : Option K :=
  if b = 0 then none else some (a / b)

/-- Function `amrex_calc_alpha_stencil` (source lines 14-29) with the quotients of
lines 22 and 24 taken by `checked_div`; `none` is the division error. -/
def amrex_calc_alpha_stencil_checked (q_hat q_max q_min state : K) : Option K :=
  let small : K := epsilon * max |q_max| |q_min|
  if (q_hat - state) > small then
    (checked_div (q_max - state) (q_hat - state)).map fun r => min 1 r
  else if (q_hat - state) < -small then
    (checked_div (q_min - state) (q_hat - state)).map fun r => min 1 r
  else
    some 1

/-! ## Intermediate values of the scan -/

/-- Locals `(xalpha, yalpha)` of the 2D limiter after the first `m` offsets of the
loops have been processed. -/
def centroid_limiter_prefix_2d (i j k n : Int) (state : Array4 K) (flag : FlagArray)
    (slopes : Fin 2 → K) (ccent : Array4 K) (m : Nat) : K × K :=
  (stencil_2d.take m).foldl
    (fun acc o => limiter_body_2d i j k n state flag slopes ccent o.1 o.2.1 o.2.2 acc)
    (1, 1)

/-- Locals `(xalpha, yalpha, zalpha)` of the 3D limiter after the first `m` offsets of
the loops have been processed. -/
def centroid_limiter_prefix_3d (i j k n : Int) (state : Array4 K) (flag : FlagArray)
    (slopes : Fin 3 → K) (ccent : Array4 K) (m : Nat) : K × K × K :=
  (stencil_3d.take m).foldl
    (fun acc o => limiter_body_3d i j k n state flag slopes ccent o.1 o.2.1 o.2.2 acc)
    (1, 1, 1)

/-! ## The limiter without the pruning test

Variant described in the design notes: the `alpha > 0.0` condition of source line 56
is dropped and every connected offset is processed. -/

/-- Loop body of the 2D limiter with the condition of line 56 reduced to the
connectivity test. -/
def limiter_body_2d_noskip (i j k n : Int) (state : Array4 K) (flag : FlagArray)
    (slopes : Fin 2 → K) (ccent : Array4 K) (ii jj kk : Int) (acc : K × K) : K × K :=
  let xalpha := acc.1
  let yalpha := acc.2
  if (flag i j k).isConnected ii jj kk = true then
    let dx := delta_x i j k ccent ii jj kk
    let dy := delta_y i j k ccent ii jj kk
    let q_hat := q_hat_2d i j k n state slopes ccent ii jj kk
    let qmax := q_max i j k n state ii jj kk
    let qmin := q_min i j k n state ii jj kk
    if out_of_bounds q_hat qmax qmin then
      let new_lim := amrex_calc_alpha_stencil q_hat qmax qmin (state i j k n)
      let xalpha := if |dx| > epsilon then min xalpha new_lim else xalpha
      let yalpha := if |dy| > epsilon then min yalpha new_lim else yalpha
      (xalpha, yalpha)
    else
      (xalpha, yalpha)
  else
    (xalpha, yalpha)

/-- Loop body of the 3D limiter with the condition of line 56 reduced to the
connectivity test. -/
def limiter_body_3d_noskip (i j k n : Int) (state : Array4 K) (flag : FlagArray)
    (slopes : Fin 3 → K) (ccent : Array4 K) (ii jj kk : Int) (acc : K × K × K) :
    K × K × K :=
  let xalpha := acc.1
  let yalpha := acc.2.1
  let zalpha := acc.2.2
  if (flag i j k).isConnected ii jj kk = true then
    let dx := delta_x i j k ccent ii jj kk
    let dy := delta_y i j k ccent ii jj kk
    let dz := delta_z i j k ccent ii jj kk
    let q_hat := q_hat_3d i j k n state slopes ccent ii jj kk
    let qmax := q_max i j k n state ii jj kk
    let qmin := q_min i j k n state ii jj kk
    if out_of_bounds q_hat qmax qmin then
      let new_lim := amrex_calc_alpha_stencil q_hat qmax qmin (state i j k n)
      let xalpha := if |dx| > epsilon then min xalpha new_lim else xalpha
      let yalpha := if |dy| > epsilon then min yalpha new_lim else yalpha
      let zalpha := if |dz| > epsilon then min zalpha new_lim else zalpha
      (xalpha, yalpha, zalpha)
    else
      (xalpha, yalpha, zalpha)
  else
    (xalpha, yalpha, zalpha)

/-- Loops of the 2D limiter run with `limiter_body_2d_noskip`. -/
def centroid_limiter_scan_2d_noskip (i j k n : Int) (state : Array4 K)
    (flag : FlagArray) (slopes : Fin 2 → K) (ccent : Array4 K) : K × K :=
  loop_range.foldl
    (fun acc jj =>
      loop_range.foldl
        (fun acc ii => limiter_body_2d_noskip i j k n state flag slopes ccent ii jj 0 acc)
        acc)
    (1, 1)

/-- Loops of the 3D limiter run with `limiter_body_3d_noskip`. -/
def centroid_limiter_scan_3d_noskip (i j k n : Int) (state : Array4 K)
    (flag : FlagArray) (slopes : Fin 3 → K) (ccent : Array4 K) : K × K × K :=
  loop_range.foldl
    (fun acc kk =>
      loop_range.foldl
        (fun acc jj =>
          loop_range.foldl
            (fun acc ii =>
              limiter_body_3d_noskip i j k n state flag slopes ccent ii jj kk acc)
            acc)
        acc)
    (1, 1, 1)

/-- Variant of `amrex_calc_centroid_limiter_2d` that scans every connected offset. -/
def amrex_calc_centroid_limiter_2d_noskip (i j k n : Int) (state : Array4 K)
    (flag : FlagArray) (slopes : Fin 2 → K) (ccent : Array4 K) : Fin 2 → K :=
  let r := centroid_limiter_scan_2d_noskip i j k n state flag slopes ccent
  ![r.1, r.2]

/-- Variant of `amrex_calc_centroid_limiter_3d` that scans every connected offset. -/
def amrex_calc_centroid_limiter_3d_noskip (i j k n : Int) (state : Array4 K)
    (flag : FlagArray) (slopes : Fin 3 → K) (ccent : Array4 K) : Fin 3 → K :=
  let r := centroid_limiter_scan_3d_noskip i j k n state flag slopes ccent
  ![r.1, r.2.1, r.2.2]

/-! ## Double-precision reading of `amrex::Real`

The same 2D code with `amrex::Real` read as IEEE binary64: every arithmetic operation
is rounded once to the nearest double, ties to even; comparisons, `max`, `min`, `abs`,
negation and the conversion of a loop counter are exact. Doubles are carried as
rationals. The exponent range is not bounded (no overflow, no subnormals), and no
operations are fused. -/

/-- Nearest integer to `p / d`, ties to the even integer. -/
def round_half_even (p d : Nat) : Nat :=
  let f := p / d
  let r := p % d
  if 2 * r < d then f
  else if d < 2 * r then f + 1
  else if f % 2 = 0 then f else f + 1

/-- Number of halvings that bring `n` below `2`, with a bound on the number of steps. -/
def ilog2_steps : Nat → Nat → Nat
  | 0, _ => 0
  | steps + 1, n => if 2 ≤ n then ilog2_steps steps (n / 2) + 1 else 0

/-- Integer part of the binary logarithm of a positive `n`. -/
def ilog2 (n : Nat) : Nat := ilog2_steps n n

/-- Integer `e` with `2 ^ e ≤ p / d < 2 ^ (e + 1)`, for positive `p` and `d`. -/
def floor_log2 (p d : Nat) : Int :=
  if d * 2 ^ ilog2 p ≤ p * 2 ^ ilog2 d then
    (ilog2 p : Int) - (ilog2 d : Int)
  else
    (ilog2 p : Int) - (ilog2 d : Int) - 1

/-- Rounding of a rational to the nearest number with a 53-bit significand (a double
when the exponent is in range), ties to even. -/
def fl (x : ℚ) : ℚ :=
  if x = 0 then 0
  else
    let p := x.num.natAbs
    let d := x.den
    let e := floor_log2 p d - 52
    let r := round_half_even (p * 2 ^ (-e).toNat) (d * 2 ^ e.toNat)
    let y := mkRat ((r * 2 ^ e.toNat : Nat) : Int) (2 ^ (-e).toNat)
    if x < 0 then -y else y

/-- Constant `epsilon = 1.e-12` as a double. -/
def epsilon_fp : ℚ := fl (1 / 10 ^ 12)

/-- Function `amrex_calc_alpha_stencil` (source lines 14-29) in double precision. -/
def amrex_calc_alpha_stencil_fp (q_hat q_max q_min state : ℚ) : ℚ :=
  let small : ℚ := fl (epsilon_fp * max |q_max| |q_min|)
  if fl (q_hat - state) > small then
    min 1 (fl (fl (q_max - state) / fl (q_hat - state)))
  else if fl (q_hat - state) < -small then
    min 1 (fl (fl (q_min - state) / fl (q_hat - state)))
  else
    1

/-- Local `delta_x` (source line 58) in double precision. -/
def delta_x_fp (i j k : Int) (ccent : Array4 ℚ) (ii jj kk : Int) : ℚ :=
  fl (fl (ccent (i + ii) (j + jj) (k + kk) 0 - ccent i j k 0) + (ii : ℚ))

/-- Local `delta_y` (source line 59) in double precision. -/
def delta_y_fp (i j k : Int) (ccent : Array4 ℚ) (ii jj kk : Int) : ℚ :=
  fl (fl (ccent (i + ii) (j + jj) (k + kk) 1 - ccent i j k 1) + (jj : ℚ))

/-- Local `q_hat` for `AMREX_SPACEDIM == 2` (source lines 62-63) in double precision,
summed from left to right. -/
def q_hat_2d_fp (i j k n : Int) (state : Array4 ℚ) (slopes : Fin 2 → ℚ)
    (ccent : Array4 ℚ) (ii jj kk : Int) : ℚ :=
  fl (fl (state i j k n + fl (delta_x_fp i j k ccent ii jj kk * slopes 0))
    + fl (delta_y_fp i j k ccent ii jj kk * slopes 1))

/-- Condition of the inner `if` (source line 69) in double precision. -/
def out_of_bounds_fp (q_hat q_max q_min : ℚ) : Prop :=
  fl (q_hat - q_max) > |fl (epsilon_fp * q_max)| ∨
    fl (q_hat - q_min) < fl (-1 * |fl (epsilon_fp * q_min)|)

instance (q_hat q_max q_min : ℚ) : Decidable (out_of_bounds_fp q_hat q_max q_min) := by
  unfold out_of_bounds_fp; infer_instance

/-- Body of the innermost loop for `AMREX_SPACEDIM == 2` (source lines 52-79) in double
precision. -/
def limiter_body_2d_fp (i j k n : Int) (state : Array4 ℚ) (flag : FlagArray)
    (slopes : Fin 2 → ℚ) (ccent : Array4 ℚ) (ii jj kk : Int) (acc : ℚ × ℚ) : ℚ × ℚ :=
  let xalpha := acc.1
  let yalpha := acc.2
  let alpha := max xalpha yalpha
  if (flag i j k).isConnected ii jj kk = true ∧ alpha > 0 then
    let dx := delta_x_fp i j k ccent ii jj kk
    let dy := delta_y_fp i j k ccent ii jj kk
    let q_hat := q_hat_2d_fp i j k n state slopes ccent ii jj kk
    let qmax := q_max i j k n state ii jj kk
    let qmin := q_min i j k n state ii jj kk
    if out_of_bounds_fp q_hat qmax qmin then
      let new_lim := amrex_calc_alpha_stencil_fp q_hat qmax qmin (state i j k n)
      let xalpha := if |dx| > epsilon_fp then min xalpha new_lim else xalpha
      let yalpha := if |dy| > epsilon_fp then min yalpha new_lim else yalpha
      (xalpha, yalpha)
    else
      (xalpha, yalpha)
  else
    (xalpha, yalpha)

/-- Function `amrex_calc_centroid_limiter` compiled with `AMREX_SPACEDIM == 2`, in
double precision. -/
def amrex_calc_centroid_limiter_2d_fp (i j k n : Int) (state : Array4 ℚ)
    (flag : FlagArray) (slopes : Fin 2 → ℚ) (ccent : Array4 ℚ) : Fin 2 → ℚ :=
  let r := loop_range.foldl
    (fun acc jj =>
      loop_range.foldl
        (fun acc ii => limiter_body_2d_fp i j k n state flag slopes ccent ii jj 0 acc) acc)
    (1, 1)
  ![r.1, r.2]

/-! ## Concrete inputs

Small inputs over `ℚ` on which the definitions above are evaluated. -/

/-- Centroid table of regular cells: every centroid offset is zero. -/
def ex_ccent : Array4 ℚ := fun _ _ _ _ => 0

/-- Field with value `1` at `(1,0)`, `-10` at `(0,1)` and `0` elsewhere (all `k`,
all components). -/
def ex_state : Array4 ℚ := fun i j _ _ =>
  if i = 1 ∧ j = 0 then 1 else if i = 0 ∧ j = 1 then -10 else 0

/-- Flag connecting every cell to the offsets with `ii ≥ 0`, `jj ≥ 0`, `kk = 0`. -/
def ex_flag : FlagArray := fun _ _ _ =>
  ⟨fun ii jj kk => decide (0 ≤ ii ∧ 0 ≤ jj ∧ kk = 0)⟩

/-- Gradient `(10, -10)`. -/
def ex_slopes_2d : Fin 2 → ℚ := ![10, -10]

/-- Gradient `(10, -10, 0)`. -/
def ex_slopes_3d : Fin 3 → ℚ := ![10, -10, 0]

/-- Flag connecting every cell to the offsets with `ii = 0` only. -/
def column_flag : FlagArray := fun _ _ _ => ⟨fun ii _ _ => decide (ii = 0)⟩

/-- Constant field of value `1`. -/
def const_state : Array4 ℚ := fun _ _ _ _ => 1

/-- Flag connecting every cell to every offset. -/
def all_connected : FlagArray := fun _ _ _ => ⟨fun _ _ _ => true⟩

/-- Gradient `(1, 0)`. -/
def unit_x_slopes : Fin 2 → ℚ := ![1, 0]

/-- Field with value `1` where `i = 1` and `j = 1`, and `0` elsewhere. -/
def diag_state : Array4 ℚ := fun i j _ _ => if i = 1 ∧ j = 1 then 1 else 0

/-- Flag connecting every cell to the offsets with `ii = 1` and `jj = 1`. -/
def diag_flag : FlagArray := fun _ _ _ => ⟨fun ii jj _ => decide (ii = 1 ∧ jj = 1)⟩

/-- Gradient `(1, 1)`. -/
def diag_slopes_2d : Fin 2 → ℚ := ![1, 1]

/-- Gradient `(1, 1, 1)`. -/
def diag_slopes_3d : Fin 3 → ℚ := ![1, 1, 1]

/-- Field `ex_state` changed to `1000` on the column `i = -1`, which `ex_flag` leaves
disconnected from the cell `(0,0,0)`. -/
def ex_state_alt : Array4 ℚ := fun i j k n => if i = -1 then 1000 else ex_state i j k n

/-- Centroid table with offset `1/4` on the column `i = -1` and zero elsewhere. -/
def ex_ccent_alt : Array4 ℚ := fun i _ _ _ => if i = -1 then 1 / 4 else 0

/-- Gradient `(0, 0)`. -/
def zero_slopes_2d : Fin 2 → ℚ := ![0, 0]

/-- Gradient `(0, 0, 0)`. -/
def zero_slopes_3d : Fin 3 → ℚ := ![0, 0, 0]

/-- Gradient `(1/4, 1/4)`. -/
def quarter_slopes_2d : Fin 2 → ℚ := ![1 / 4, 1 / 4]

/-- Gradient `(1/4, 1/4, 1/4)`. -/
def quarter_slopes_3d : Fin 3 → ℚ := ![1 / 4, 1 / 4, 1 / 4]

/-- Field of doubles with value `0.3` where `i = 1` and `j = 1`, and `1` elsewhere. -/
def unit_state : Array4 ℚ := fun i j _ _ => if i = 1 ∧ j = 1 then fl (3 / 10) else 1

/-- Gradient `(-10000, 9999)`. -/
def crossing_slopes : Fin 2 → ℚ := ![-10000, 9999]

/-! ## Lemmas on the tolerance and on `amrex_calc_alpha_stencil` -/

/-- The tolerance `epsilon` is positive. -/
theorem epsilon_pos : (0 : K) < epsilon := by
  unfold epsilon; positivity

/-- The local `small` of `amrex_calc_alpha_stencil` is non-negative. -/
theorem small_nonneg (a b : K) : (0 : K) ≤ epsilon * max |a| |b| :=
  mul_nonneg epsilon_pos.le (le_max_of_le_left (abs_nonneg a))

/-- The evaluator never returns more than `1`. -/
theorem alpha_stencil_le_one (q_hat q_max q_min state : K) :
    amrex_calc_alpha_stencil q_hat q_max q_min state ≤ 1 := by
  unfold amrex_calc_alpha_stencil
  simp only []
  split_ifs
  · exact min_le_left _ _
  · exact min_le_left _ _
  · exact le_refl _

/-- The evaluator is non-negative when the reference lies within the bounds. -/
theorem alpha_stencil_nonneg (q_hat q_max q_min state : K)
    (h1 : q_min ≤ state) (h2 : state ≤ q_max) :
    0 ≤ amrex_calc_alpha_stencil q_hat q_max q_min state := by
  have hs := small_nonneg q_max q_min
  unfold amrex_calc_alpha_stencil
  simp only []
  split_ifs with ha hb
  · exact le_min zero_le_one (div_nonneg (by linarith) (by linarith))
  · exact le_min zero_le_one (div_nonneg_of_nonpos (by linarith) (by linarith))
  · exact zero_le_one

/-- The tolerance of the upper bounds test is at most `small`. -/
theorem abs_eps_mul_le_left (a b : K) : |epsilon * a| ≤ epsilon * max |a| |b| := by
  rw [abs_mul, abs_of_pos epsilon_pos]
  exact mul_le_mul_of_nonneg_left (le_max_left _ _) epsilon_pos.le

/-- The tolerance of the lower bounds test is at most `small`. -/
theorem abs_eps_mul_le_right (a b : K) : |epsilon * b| ≤ epsilon * max |a| |b| := by
  rw [abs_mul, abs_of_pos epsilon_pos]
  exact mul_le_mul_of_nonneg_left (le_max_right _ _) epsilon_pos.le

/-- A point between `x` and `x + d` stays below a common upper bound. -/
theorem convex_upper (t x d B : K) (ht0 : 0 ≤ t) (ht1 : t ≤ 1) (hx : x ≤ B) (hxd : x + d ≤ B) :
    x + t * d ≤ B := by
  have a := mul_nonneg ht0 (sub_nonneg.2 hxd)
  have b := mul_nonneg (sub_nonneg.2 ht1) (sub_nonneg.2 hx)
  linarith

/-- A point between `x` and `x + d` stays above a common lower bound. -/
theorem convex_lower (t x d B : K) (ht0 : 0 ≤ t) (ht1 : t ≤ 1) (hx : B ≤ x) (hxd : B ≤ x + d) :
    B ≤ x + t * d := by
  have a := mul_nonneg ht0 (sub_nonneg.2 hxd)
  have b := mul_nonneg (sub_nonneg.2 ht1) (sub_nonneg.2 hx)
  linarith

/-- The evaluator returns `1` as soon as a prediction on the far side of the tolerance
band is still inside the bound it moves towards. -/
theorem alpha_stencil_eq_one (q_hat q_max q_min state : K)
    (hu : q_hat - state > epsilon * max |q_max| |q_min| → q_hat ≤ q_max)
    (hl : q_hat - state < -(epsilon * max |q_max| |q_min|) → q_min ≤ q_hat) :
    amrex_calc_alpha_stencil q_hat q_max q_min state = 1 := by
  have hs := small_nonneg q_max q_min
  unfold amrex_calc_alpha_stencil
  simp only []
  split_ifs with ha hb
  · apply min_eq_left
    rw [le_div_iff₀ (by linarith)]
    linarith [hu ha]
  · apply min_eq_left
    rw [le_div_iff_of_neg (by linarith)]
    linarith [hl hb]
  · rfl

/-- Scaling the excursion `d` by a factor `t` between `0` and the evaluator's result
keeps the prediction inside the bounds widened by `small`. -/
theorem scaled_le_alpha_within (q_max q_min state d t : K)
    (h1 : q_min ≤ state) (h2 : state ≤ q_max) (ht0 : 0 ≤ t)
    (ht : t ≤ amrex_calc_alpha_stencil (state + d) q_max q_min state) :
    q_min - epsilon * max |q_max| |q_min| ≤ state + t * d ∧
      state + t * d ≤ q_max + epsilon * max |q_max| |q_min| := by
  have hs := small_nonneg q_max q_min
  have ht1 : t ≤ 1 := le_trans ht (alpha_stencil_le_one _ _ _ _)
  unfold amrex_calc_alpha_stencil at ht
  simp only [add_sub_cancel_left] at ht
  split_ifs at ht with ha hb
  · have hd : 0 < d := lt_of_le_of_lt hs ha
    have h3 : t * d ≤ q_max - state := by
      have := le_trans ht (min_le_right _ _)
      rwa [le_div_iff₀ hd] at this
    have h4 : 0 ≤ t * d := mul_nonneg ht0 hd.le
    constructor <;> linarith
  · have hd : d < 0 := by linarith
    have h3 : q_min - state ≤ t * d := by
      have := le_trans ht (min_le_right _ _)
      rwa [le_div_iff_of_neg hd] at this
    have h4 : t * d ≤ 0 := mul_nonpos_of_nonneg_of_nonpos ht0 hd.le
    constructor <;> linarith
  · have ha2 := not_lt.1 ha
    have hb2 := not_lt.1 hb
    constructor
    · exact convex_lower t state d _ ht0 ht1 (by linarith) (by linarith)
    · exact convex_upper t state d _ ht0 ht1 (by linarith) (by linarith)

/-- Scaling the excursion of a prediction that passes the bounds test by a factor in
`[0,1]` keeps it inside the bounds widened by `small`. -/
theorem scaled_in_bounds_within (q_max q_min state d t : K)
    (h1 : q_min ≤ state) (h2 : state ≤ q_max) (ht0 : 0 ≤ t) (ht1 : t ≤ 1)
    (hn : ¬ out_of_bounds (state + d) q_max q_min) :
    q_min - epsilon * max |q_max| |q_min| ≤ state + t * d ∧
      state + t * d ≤ q_max + epsilon * max |q_max| |q_min| := by
  have e1 := abs_eps_mul_le_left q_max q_min
  have e2 := abs_eps_mul_le_right q_max q_min
  unfold out_of_bounds at hn
  push_neg at hn
  obtain ⟨hu, hl⟩ := hn
  have hs := small_nonneg q_max q_min
  constructor
  · exact convex_lower t state d _ ht0 ht1 (by linarith) (by linarith)
  · exact convex_upper t state d _ ht0 ht1 (by linarith) (by linarith)

/-- Scaling the excursion `d` by a factor in `[0,1]` that does not exceed the
evaluator result at an out-of-bounds prediction keeps the prediction inside the bounds
widened by `small`. -/
theorem scaled_within (q_max q_min state d t : K)
    (h1 : q_min ≤ state) (h2 : state ≤ q_max) (ht0 : 0 ≤ t) (ht1 : t ≤ 1)
    (ht : out_of_bounds (state + d) q_max q_min →
      t ≤ amrex_calc_alpha_stencil (state + d) q_max q_min state) :
    q_min - epsilon * max |q_max| |q_min| ≤ state + t * d ∧
      state + t * d ≤ q_max + epsilon * max |q_max| |q_min| := by
  by_cases hv : out_of_bounds (state + d) q_max q_min
  · exact scaled_le_alpha_within q_max q_min state d t h1 h2 ht0 (ht hv)
  · exact scaled_in_bounds_within q_max q_min state d t h1 h2 ht0 ht1 hv

/-- With both bounds equal to the reference, the evaluator returns `0` for a prediction
that fails the bounds test. -/
theorem alpha_stencil_const (q_hat c : K) (hv : out_of_bounds q_hat c c) :
    amrex_calc_alpha_stencil q_hat c c c = 0 := by
  unfold out_of_bounds at hv
  unfold amrex_calc_alpha_stencil
  simp only [max_self]
  rw [abs_mul, abs_of_pos epsilon_pos] at hv
  have hs : (0:K) ≤ epsilon * |c| := mul_nonneg epsilon_pos.le (abs_nonneg c)
  rcases hv with h | h
  · rw [if_pos h]; simp
  · have h' : q_hat - c < -(epsilon * |c|) := by linarith
    rw [if_neg (by linarith), if_pos h']; simp

/-- With both bounds equal to `c`, the bounds test is `|q_hat - c| > epsilon * |c|`. -/
theorem out_of_bounds_const (q_hat c : K) :
    out_of_bounds q_hat c c ↔ |q_hat - c| > epsilon * |c| := by
  unfold out_of_bounds
  rw [abs_mul, abs_of_pos epsilon_pos]
  simp only [gt_iff_lt, lt_abs]
  constructor
  · rintro (h | h)
    · exact Or.inl h
    · exact Or.inr (by linarith)
  · rintro (h | h)
    · exact Or.inl h
    · exact Or.inr (by linarith)

/-- The offsets of `stencil_3d` are the triples with all components in `{-1,0,1}`. -/
theorem mem_stencil_3d (ii jj kk : Int) :
    (ii, jj, kk) ∈ stencil_3d ↔ ii ∈ loop_range ∧ jj ∈ loop_range ∧ kk ∈ loop_range := by
  simp only [stencil_3d, List.mem_flatMap, List.mem_map, Prod.mk.injEq]
  constructor
  · rintro ⟨a, ha, b, hb, c, hc, rfl, rfl, rfl⟩
    exact ⟨hc, hb, ha⟩
  · rintro ⟨h1, h2, h3⟩
    exact ⟨kk, h3, jj, h2, ii, h1, rfl, rfl, rfl⟩

/-- The offsets of `stencil_2d` are the triples with `ii`, `jj` in `{-1,0,1}` and
`kk = 0`. -/
theorem mem_stencil_2d (ii jj kk : Int) :
    (ii, jj, kk) ∈ stencil_2d ↔ ii ∈ loop_range ∧ jj ∈ loop_range ∧ kk = 0 := by
  simp only [stencil_2d, List.mem_flatMap, List.mem_map, Prod.mk.injEq]
  constructor
  · rintro ⟨b, hb, c, hc, rfl, rfl, rfl⟩
    exact ⟨hc, hb, rfl⟩
  · rintro ⟨h1, h2, h3⟩
    exact ⟨jj, h2, ii, h1, rfl, rfl, h3.symm⟩

/-! ## Lemmas on the running minimum -/

section foldMin
variable {β : Type} (p : β → Prop) [DecidablePred p] (v : β → K)

/-- Unfolding of the running minimum at the head of the list. -/
theorem foldMin_cons (o : β) (l : List β) (init : K) :
    foldMin p v (o :: l) init = foldMin p v l (if p o then min init (v o) else init) := rfl

/-- The running minimum never exceeds its initial value. -/
theorem foldMin_le_init (l : List β) (init : K) : foldMin p v l init ≤ init := by
  induction l generalizing init with
  | nil => exact le_refl _
  | cons o l ih =>
    rw [foldMin_cons]
    refine le_trans (ih _) ?_
    split_ifs
    · exact min_le_left _ _
    · exact le_refl _

/-- The running minimum is at most the value of every selected element. -/
theorem foldMin_le_of_mem (l : List β) (init : K) (o : β) (ho : o ∈ l) (hp : p o) :
    foldMin p v l init ≤ v o := by
  induction l generalizing init with
  | nil => cases ho
  | cons x l ih =>
    rw [foldMin_cons]
    rcases List.mem_cons.1 ho with rfl | h
    · rw [if_pos hp]
      exact le_trans (foldMin_le_init p v l _) (min_le_right _ _)
    · exact ih _ h

/-- The running minimum is the initial value or the value of a selected element. -/
theorem foldMin_attained (l : List β) (init : K) :
    foldMin p v l init = init ∨ ∃ o ∈ l, p o ∧ foldMin p v l init = v o := by
  induction l generalizing init with
  | nil => exact Or.inl rfl
  | cons x l ih =>
    rw [foldMin_cons]
    rcases ih (if p x then min init (v x) else init) with h | ⟨o, ho, hpo, h⟩
    · rw [h]
      split_ifs with hx
      · rcases min_choice init (v x) with h2 | h2
        · exact Or.inl h2
        · exact Or.inr ⟨x, List.mem_cons_self _ _, hx, h2⟩
      · exact Or.inl rfl
    · exact Or.inr ⟨o, List.mem_cons_of_mem _ ho, hpo, h⟩

/-- A lower bound of the initial value and of all selected values bounds the running
minimum. -/
theorem le_foldMin (l : List β) (init c : K) (hc : c ≤ init)
    (h : ∀ o ∈ l, p o → c ≤ v o) : c ≤ foldMin p v l init := by
  rcases foldMin_attained p v l init with h1 | ⟨o, ho, hpo, h1⟩
  · rw [h1]; exact hc
  · rw [h1]; exact h o ho hpo

/-- The running minimum stays at the initial value when no selected value is below it. -/
theorem foldMin_eq_init (l : List β) (init : K)
    (h : ∀ o ∈ l, p o → init ≤ v o) : foldMin p v l init = init :=
  le_antisymm (foldMin_le_init p v l init) (le_foldMin p v l init init (le_refl _) h)

end foldMin

/-! ## The limiter as a running minimum -/

section
variable (i j k n : Int) (state : Array4 K) (flag : FlagArray) (ccent : Array4 K)

/-- The pairwise minimum is at most the value of the cell. -/
theorem q_min_le_state (ii jj kk : Int) : q_min i j k n state ii jj kk ≤ state i j k n :=
  min_le_right _ _

/-- The pairwise maximum is at least the value of the cell. -/
theorem state_le_q_max (ii jj kk : Int) : state i j k n ≤ q_max i j k n state ii jj kk :=
  le_max_right _ _

/-- The value `new_lim` is non-negative (two dimensions). -/
theorem new_lim_2d_nonneg (slopes : Fin 2 → K) (ii jj kk : Int) :
    0 ≤ new_lim_2d i j k n state slopes ccent ii jj kk :=
  alpha_stencil_nonneg _ _ _ _ (q_min_le_state ..) (state_le_q_max ..)

/-- The value `new_lim` is non-negative (three dimensions). -/
theorem new_lim_3d_nonneg (slopes : Fin 3 → K) (ii jj kk : Int) :
    0 ≤ new_lim_3d i j k n state slopes ccent ii jj kk :=
  alpha_stencil_nonneg _ _ _ _ (q_min_le_state ..) (state_le_q_max ..)

/-- On non-negative scales the loop body acts on each axis separately: the pruning
test `alpha > 0.0` only skips offsets when both scales are already `0`. -/
theorem limiter_body_2d_eq (slopes : Fin 2 → K) (ii jj kk : Int) (acc : K × K)
    (h1 : 0 ≤ acc.1) (h2 : 0 ≤ acc.2) :
    limiter_body_2d i j k n state flag slopes ccent ii jj kk acc =
      (if tightens_2d i j k n state flag slopes ccent ii jj kk 0 then
          min acc.1 (new_lim_2d i j k n state slopes ccent ii jj kk) else acc.1,
       if tightens_2d i j k n state flag slopes ccent ii jj kk 1 then
          min acc.2 (new_lim_2d i j k n state slopes ccent ii jj kk) else acc.2) := by
  have hl := new_lim_2d_nonneg i j k n state ccent slopes ii jj kk
  unfold new_lim_2d at hl
  unfold limiter_body_2d tightens_2d delta_2d new_lim_2d
  by_cases hc : (flag i j k).isConnected ii jj kk = true
  · by_cases ha : max acc.1 acc.2 > 0
    · by_cases ho : out_of_bounds (q_hat_2d i j k n state slopes ccent ii jj kk)
        (q_max i j k n state ii jj kk) (q_min i j k n state ii jj kk)
      · simp [hc, ha, ho]
      · simp [hc, ha, ho]
    · have e1 : acc.1 = 0 := le_antisymm (le_trans (le_max_left _ _) (not_lt.1 ha)) h1
      have e2 : acc.2 = 0 := le_antisymm (le_trans (le_max_right _ _) (not_lt.1 ha)) h2
      simp [hc, ha, e1, e2, hl]
  · simp [hc]

/-- On non-negative scales the loop body acts on each axis separately: the pruning
test `alpha > 0.0` only skips offsets when all three scales are already `0`. -/
theorem limiter_body_3d_eq (slopes : Fin 3 → K) (ii jj kk : Int) (acc : K × K × K)
    (h1 : 0 ≤ acc.1) (h2 : 0 ≤ acc.2.1) (h3 : 0 ≤ acc.2.2) :
    limiter_body_3d i j k n state flag slopes ccent ii jj kk acc =
      (if tightens_3d i j k n state flag slopes ccent ii jj kk 0 then
          min acc.1 (new_lim_3d i j k n state slopes ccent ii jj kk) else acc.1,
       if tightens_3d i j k n state flag slopes ccent ii jj kk 1 then
          min acc.2.1 (new_lim_3d i j k n state slopes ccent ii jj kk) else acc.2.1,
       if tightens_3d i j k n state flag slopes ccent ii jj kk 2 then
          min acc.2.2 (new_lim_3d i j k n state slopes ccent ii jj kk) else acc.2.2) := by
  have hl := new_lim_3d_nonneg i j k n state ccent slopes ii jj kk
  unfold new_lim_3d at hl
  unfold limiter_body_3d tightens_3d delta_3d new_lim_3d
  by_cases hc : (flag i j k).isConnected ii jj kk = true
  · by_cases ha : max (max acc.1 acc.2.1) acc.2.2 > 0
    · by_cases ho : out_of_bounds (q_hat_3d i j k n state slopes ccent ii jj kk)
        (q_max i j k n state ii jj kk) (q_min i j k n state ii jj kk)
      · simp [hc, ha, ho]
      · simp [hc, ha, ho]
    · have hm := not_lt.1 ha
      have e1 : acc.1 = 0 :=
        le_antisymm (le_trans (le_trans (le_max_left _ _) (le_max_left _ _)) hm) h1
      have e2 : acc.2.1 = 0 :=
        le_antisymm (le_trans (le_trans (le_max_right _ _) (le_max_left _ _)) hm) h2
      have e3 : acc.2.2 = 0 := le_antisymm (le_trans (le_max_right _ _) hm) h3
      simp [hc, ha, e1, e2, e3, hl]
  · simp [hc]

/-- The nested loops of the 2D limiter visit `stencil_2d` in order. -/
theorem scan_2d_eq_foldl (slopes : Fin 2 → K) :
    centroid_limiter_scan_2d i j k n state flag slopes ccent =
      stencil_2d.foldl
        (fun acc o => limiter_body_2d i j k n state flag slopes ccent o.1 o.2.1 o.2.2 acc)
        (1, 1) := rfl

/-- The nested loops of the 3D limiter visit `stencil_3d` in order. -/
theorem scan_3d_eq_foldl (slopes : Fin 3 → K) :
    centroid_limiter_scan_3d i j k n state flag slopes ccent =
      stencil_3d.foldl
        (fun acc o => limiter_body_3d i j k n state flag slopes ccent o.1 o.2.1 o.2.2 acc)
        (1, 1, 1) := rfl

/-- Folding the 2D loop body over a list of offsets computes one running minimum per
axis. -/
theorem foldl_body_2d (slopes : Fin 2 → K) (l : List (Int × Int × Int)) (acc : K × K)
    (h1 : 0 ≤ acc.1) (h2 : 0 ≤ acc.2) :
    l.foldl
        (fun acc o => limiter_body_2d i j k n state flag slopes ccent o.1 o.2.1 o.2.2 acc)
        acc =
      (foldMin (fun o => tightens_2d i j k n state flag slopes ccent o.1 o.2.1 o.2.2 0)
          (fun o => new_lim_2d i j k n state slopes ccent o.1 o.2.1 o.2.2) l acc.1,
       foldMin (fun o => tightens_2d i j k n state flag slopes ccent o.1 o.2.1 o.2.2 1)
          (fun o => new_lim_2d i j k n state slopes ccent o.1 o.2.1 o.2.2) l acc.2) := by
  induction l generalizing acc with
  | nil => rfl
  | cons o l ih =>
    have hl := new_lim_2d_nonneg i j k n state ccent slopes o.1 o.2.1 o.2.2
    rw [List.foldl_cons, limiter_body_2d_eq i j k n state flag ccent slopes _ _ _ acc h1 h2,
      ih, foldMin_cons, foldMin_cons]
    · dsimp only; split_ifs
      · exact le_min h1 hl
      · exact h1
    · dsimp only; split_ifs
      · exact le_min h2 hl
      · exact h2

/-- Folding the 3D loop body over a list of offsets computes one running minimum per
axis. -/
theorem foldl_body_3d (slopes : Fin 3 → K) (l : List (Int × Int × Int)) (acc : K × K × K)
    (h1 : 0 ≤ acc.1) (h2 : 0 ≤ acc.2.1) (h3 : 0 ≤ acc.2.2) :
    l.foldl
        (fun acc o => limiter_body_3d i j k n state flag slopes ccent o.1 o.2.1 o.2.2 acc)
        acc =
      (foldMin (fun o => tightens_3d i j k n state flag slopes ccent o.1 o.2.1 o.2.2 0)
          (fun o => new_lim_3d i j k n state slopes ccent o.1 o.2.1 o.2.2) l acc.1,
       foldMin (fun o => tightens_3d i j k n state flag slopes ccent o.1 o.2.1 o.2.2 1)
          (fun o => new_lim_3d i j k n state slopes ccent o.1 o.2.1 o.2.2) l acc.2.1,
       foldMin (fun o => tightens_3d i j k n state flag slopes ccent o.1 o.2.1 o.2.2 2)
          (fun o => new_lim_3d i j k n state slopes ccent o.1 o.2.1 o.2.2) l acc.2.2) := by
  induction l generalizing acc with
  | nil => rfl
  | cons o l ih =>
    have hl := new_lim_3d_nonneg i j k n state ccent slopes o.1 o.2.1 o.2.2
    rw [List.foldl_cons, limiter_body_3d_eq i j k n state flag ccent slopes _ _ _ acc h1 h2 h3,
      ih, foldMin_cons, foldMin_cons, foldMin_cons]
    · dsimp only; split_ifs
      · exact le_min h1 hl
      · exact h1
    · dsimp only; split_ifs
      · exact le_min h2 hl
      · exact h2
    · dsimp only; split_ifs
      · exact le_min h3 hl
      · exact h3

/-- Each scale returned by the 2D limiter is a running minimum over `stencil_2d`. -/
theorem limiter_2d_eq_foldMin (slopes : Fin 2 → K) (a : Fin 2) :
    amrex_calc_centroid_limiter_2d i j k n state flag slopes ccent a =
      foldMin (fun o => tightens_2d i j k n state flag slopes ccent o.1 o.2.1 o.2.2 a)
        (fun o => new_lim_2d i j k n state slopes ccent o.1 o.2.1 o.2.2) stencil_2d 1 := by
  unfold amrex_calc_centroid_limiter_2d
  rw [scan_2d_eq_foldl, foldl_body_2d i j k n state flag ccent slopes _ _ zero_le_one zero_le_one]
  fin_cases a <;> rfl

/-- Each scale returned by the 3D limiter is a running minimum over `stencil_3d`. -/
theorem limiter_3d_eq_foldMin (slopes : Fin 3 → K) (a : Fin 3) :
    amrex_calc_centroid_limiter_3d i j k n state flag slopes ccent a =
      foldMin (fun o => tightens_3d i j k n state flag slopes ccent o.1 o.2.1 o.2.2 a)
        (fun o => new_lim_3d i j k n state slopes ccent o.1 o.2.1 o.2.2) stencil_3d 1 := by
  unfold amrex_calc_centroid_limiter_3d
  rw [scan_3d_eq_foldl,
    foldl_body_3d i j k n state flag ccent slopes _ _ zero_le_one zero_le_one zero_le_one]
  fin_cases a <;> rfl

end

/-! ## Consequences for the returned scales -/

section
variable (i j k n : Int) (state : Array4 K) (flag : FlagArray) (ccent : Array4 K)

/-- A scale returned by the 2D limiter is at most `1`. -/
theorem limiter_2d_le_one (slopes : Fin 2 → K) (a : Fin 2) :
    amrex_calc_centroid_limiter_2d i j k n state flag slopes ccent a ≤ 1 := by
  rw [limiter_2d_eq_foldMin]
  exact foldMin_le_init _ _ _ _

/-- A scale returned by the 3D limiter is at most `1`. -/
theorem limiter_3d_le_one (slopes : Fin 3 → K) (a : Fin 3) :
    amrex_calc_centroid_limiter_3d i j k n state flag slopes ccent a ≤ 1 := by
  rw [limiter_3d_eq_foldMin]
  exact foldMin_le_init _ _ _ _

/-- A scale returned by the 2D limiter is non-negative. -/
theorem limiter_2d_nonneg (slopes : Fin 2 → K) (a : Fin 2) :
    0 ≤ amrex_calc_centroid_limiter_2d i j k n state flag slopes ccent a := by
  rw [limiter_2d_eq_foldMin]
  exact le_foldMin _ _ _ _ _ zero_le_one
    (fun o _ _ => new_lim_2d_nonneg i j k n state ccent slopes o.1 o.2.1 o.2.2)

/-- A scale returned by the 3D limiter is non-negative. -/
theorem limiter_3d_nonneg (slopes : Fin 3 → K) (a : Fin 3) :
    0 ≤ amrex_calc_centroid_limiter_3d i j k n state flag slopes ccent a := by
  rw [limiter_3d_eq_foldMin]
  exact le_foldMin _ _ _ _ _ zero_le_one
    (fun o _ _ => new_lim_3d_nonneg i j k n state ccent slopes o.1 o.2.1 o.2.2)

/-- A scale is at most the `new_lim` of every offset that tightens its axis. -/
theorem limiter_2d_le_new_lim (slopes : Fin 2 → K) (a : Fin 2) (ii jj : Int)
    (hi : ii ∈ loop_range) (hj : jj ∈ loop_range)
    (ht : tightens_2d i j k n state flag slopes ccent ii jj 0 a) :
    amrex_calc_centroid_limiter_2d i j k n state flag slopes ccent a ≤
      new_lim_2d i j k n state slopes ccent ii jj 0 := by
  rw [limiter_2d_eq_foldMin]
  exact foldMin_le_of_mem
    (fun o => tightens_2d i j k n state flag slopes ccent o.1 o.2.1 o.2.2 a)
    (fun o => new_lim_2d i j k n state slopes ccent o.1 o.2.1 o.2.2) stencil_2d 1
    (ii, jj, 0) ((mem_stencil_2d ii jj 0).2 ⟨hi, hj, rfl⟩) ht

/-- A scale is at most the `new_lim` of every offset that tightens its axis. -/
theorem limiter_3d_le_new_lim (slopes : Fin 3 → K) (a : Fin 3) (ii jj kk : Int)
    (hi : ii ∈ loop_range) (hj : jj ∈ loop_range) (hk : kk ∈ loop_range)
    (ht : tightens_3d i j k n state flag slopes ccent ii jj kk a) :
    amrex_calc_centroid_limiter_3d i j k n state flag slopes ccent a ≤
      new_lim_3d i j k n state slopes ccent ii jj kk := by
  rw [limiter_3d_eq_foldMin]
  exact foldMin_le_of_mem
    (fun o => tightens_3d i j k n state flag slopes ccent o.1 o.2.1 o.2.2 a)
    (fun o => new_lim_3d i j k n state slopes ccent o.1 o.2.1 o.2.2) stencil_3d 1
    (ii, jj, kk) ((mem_stencil_3d ii jj kk).2 ⟨hi, hj, hk⟩) ht

/-- Prediction for a gradient scaled uniformly by `t`. -/
theorem q_hat_2d_scaled (slopes : Fin 2 → K) (t : K) (ii jj kk : Int) :
    q_hat_2d i j k n state (fun b => t * slopes b) ccent ii jj kk =
      state i j k n +
        t * (q_hat_2d i j k n state slopes ccent ii jj kk - state i j k n) := by
  unfold q_hat_2d; ring

/-- Prediction for a gradient scaled uniformly by `t`. -/
theorem q_hat_3d_scaled (slopes : Fin 3 → K) (t : K) (ii jj kk : Int) :
    q_hat_3d i j k n state (fun b => t * slopes b) ccent ii jj kk =
      state i j k n +
        t * (q_hat_3d i j k n state slopes ccent ii jj kk - state i j k n) := by
  unfold q_hat_3d; ring

/-- A uniformly scaled prediction stays within the widened pairwise bounds when the
factor lies in `[0,1]` and does not exceed `new_lim` at an out-of-bounds offset. -/
theorem q_hat_2d_scaled_within (slopes : Fin 2 → K) (t : K) (ii jj kk : Int)
    (ht0 : 0 ≤ t) (ht1 : t ≤ 1)
    (ht : out_of_bounds (q_hat_2d i j k n state slopes ccent ii jj kk)
        (q_max i j k n state ii jj kk) (q_min i j k n state ii jj kk) →
      t ≤ new_lim_2d i j k n state slopes ccent ii jj kk) :
    q_min i j k n state ii jj kk -
          epsilon * max |q_max i j k n state ii jj kk| |q_min i j k n state ii jj kk| ≤
        q_hat_2d i j k n state (fun b => t * slopes b) ccent ii jj kk ∧
      q_hat_2d i j k n state (fun b => t * slopes b) ccent ii jj kk ≤
        q_max i j k n state ii jj kk +
          epsilon * max |q_max i j k n state ii jj kk| |q_min i j k n state ii jj kk| := by
  rw [q_hat_2d_scaled]
  apply scaled_within _ _ _ _ _ (q_min_le_state ..) (state_le_q_max ..) ht0 ht1
  rw [add_sub_cancel]
  exact ht

/-- A uniformly scaled prediction stays within the widened pairwise bounds when the
factor lies in `[0,1]` and does not exceed `new_lim` at an out-of-bounds offset. -/
theorem q_hat_3d_scaled_within (slopes : Fin 3 → K) (t : K) (ii jj kk : Int)
    (ht0 : 0 ≤ t) (ht1 : t ≤ 1)
    (ht : out_of_bounds (q_hat_3d i j k n state slopes ccent ii jj kk)
        (q_max i j k n state ii jj kk) (q_min i j k n state ii jj kk) →
      t ≤ new_lim_3d i j k n state slopes ccent ii jj kk) :
    q_min i j k n state ii jj kk -
          epsilon * max |q_max i j k n state ii jj kk| |q_min i j k n state ii jj kk| ≤
        q_hat_3d i j k n state (fun b => t * slopes b) ccent ii jj kk ∧
      q_hat_3d i j k n state (fun b => t * slopes b) ccent ii jj kk ≤
        q_max i j k n state ii jj kk +
          epsilon * max |q_max i j k n state ii jj kk| |q_min i j k n state ii jj kk| := by
  rw [q_hat_3d_scaled]
  apply scaled_within _ _ _ _ _ (q_min_le_state ..) (state_le_q_max ..) ht0 ht1
  rw [add_sub_cancel]
  exact ht

end

/-! ## The bound-ratio evaluator `amrex_calc_alpha_stencil` -/

/-- C3: for `q_min ≤ state ≤ q_max` and `|q_hat - state| > 1e-12 * max(|q_max|, |q_min|)`
the result `alpha` of `amrex_calc_alpha_stencil` keeps `state + alpha * (q_hat - state)`
inside `[q_min, q_max]`, and every `beta` in `[0,1]` that does so is at most `alpha`. -/
theorem alpha_stencil_largest_admissible (q_hat q_max q_min state : K)
    (h1 : q_min ≤ state) (h2 : state ≤ q_max)
    (h3 : |q_hat - state| > epsilon * max |q_max| |q_min|) :
    (q_min ≤ state + amrex_calc_alpha_stencil q_hat q_max q_min state * (q_hat - state) ∧
      state + amrex_calc_alpha_stencil q_hat q_max q_min state * (q_hat - state) ≤ q_max) ∧
    ∀ beta : K, 0 ≤ beta → beta ≤ 1 →
      q_min ≤ state + beta * (q_hat - state) → state + beta * (q_hat - state) ≤ q_max →
      beta ≤ amrex_calc_alpha_stencil q_hat q_max q_min state := by
  have hs := small_nonneg q_max q_min
  have h0 := alpha_stencil_nonneg q_hat q_max q_min state h1 h2
  rcases lt_abs.1 h3 with hd | hd
  · have hpos : 0 < q_hat - state := lt_of_le_of_lt hs hd
    have hα : amrex_calc_alpha_stencil q_hat q_max q_min state =
        min 1 ((q_max - state) / (q_hat - state)) := by
      unfold amrex_calc_alpha_stencil
      simp only []
      rw [if_pos hd]
    have hle : amrex_calc_alpha_stencil q_hat q_max q_min state * (q_hat - state) ≤
        q_max - state := by
      rw [hα, ← le_div_iff₀ hpos]
      exact min_le_right _ _
    have hge := mul_nonneg h0 hpos.le
    refine ⟨⟨by linarith, by linarith⟩, ?_⟩
    intro beta _ hb1 _ hbu
    rw [hα]
    refine le_min hb1 ?_
    rw [le_div_iff₀ hpos]
    linarith
  · have hneg : q_hat - state < 0 := by linarith
    have hα : amrex_calc_alpha_stencil q_hat q_max q_min state =
        min 1 ((q_min - state) / (q_hat - state)) := by
      unfold amrex_calc_alpha_stencil
      simp only []
      rw [if_neg (by linarith), if_pos (by linarith)]
    have hle : q_min - state ≤
        amrex_calc_alpha_stencil q_hat q_max q_min state * (q_hat - state) := by
      rw [hα, ← le_div_iff_of_neg hneg]
      exact min_le_right _ _
    have hge := mul_nonpos_of_nonneg_of_nonpos h0 hneg.le
    refine ⟨⟨by linarith, by linarith⟩, ?_⟩
    intro beta _ hb1 hbl _
    rw [hα]
    refine le_min hb1 ?_
    rw [le_div_iff_of_neg hneg]
    linarith

/-- Witness of C3 at `q_hat = 2`, `q_max = 1`, `q_min = 0`, `state = 1/2`. -/
theorem alpha_stencil_largest_admissible_witness :
    ((0 : ℚ) ≤ 1 / 2 ∧ (1 / 2 : ℚ) ≤ 1 ∧
      |(2 : ℚ) - 1 / 2| > epsilon * max |(1 : ℚ)| |(0 : ℚ)|) ∧
    (((0 : ℚ) ≤ 1 / 2 + amrex_calc_alpha_stencil (2 : ℚ) 1 0 (1 / 2) * (2 - 1 / 2) ∧
      1 / 2 + amrex_calc_alpha_stencil (2 : ℚ) 1 0 (1 / 2) * (2 - 1 / 2) ≤ 1) ∧
    ∀ beta : ℚ, 0 ≤ beta → beta ≤ 1 →
      0 ≤ 1 / 2 + beta * (2 - 1 / 2) → 1 / 2 + beta * (2 - 1 / 2) ≤ 1 →
      beta ≤ amrex_calc_alpha_stencil (2 : ℚ) 1 0 (1 / 2)) :=
  ⟨by decide!,
   alpha_stencil_largest_admissible (2 : ℚ) 1 0 (1 / 2) (by decide!) (by decide!)
     (by decide!)⟩

/-- C5: whenever `q_min ≤ state ≤ q_max`, `amrex_calc_alpha_stencil` returns a value in
`[0,1]` for every `q_hat`; the ratio taken in either limiting branch is non-negative. -/
theorem alpha_stencil_unit_interval (q_hat q_max q_min state : K)
    (h1 : q_min ≤ state) (h2 : state ≤ q_max) :
    (0 ≤ amrex_calc_alpha_stencil q_hat q_max q_min state ∧
      amrex_calc_alpha_stencil q_hat q_max q_min state ≤ 1) ∧
    (q_hat - state > epsilon * max |q_max| |q_min| →
      0 ≤ (q_max - state) / (q_hat - state)) ∧
    (q_hat - state < -(epsilon * max |q_max| |q_min|) →
      0 ≤ (q_min - state) / (q_hat - state)) := by
  have hs := small_nonneg q_max q_min
  refine ⟨⟨alpha_stencil_nonneg _ _ _ _ h1 h2, alpha_stencil_le_one _ _ _ _⟩, ?_, ?_⟩
  · intro h
    exact div_nonneg (by linarith) (by linarith)
  · intro h
    exact div_nonneg_of_nonpos (by linarith) (by linarith)

/-- Witness of C5 at `q_hat = -3`, `q_max = 1`, `q_min = 0`, `state = 1/2`. -/
theorem alpha_stencil_unit_interval_witness :
    ((0 : ℚ) ≤ 1 / 2 ∧ (1 / 2 : ℚ) ≤ 1) ∧
    ((0 ≤ amrex_calc_alpha_stencil (-3 : ℚ) 1 0 (1 / 2) ∧
      amrex_calc_alpha_stencil (-3 : ℚ) 1 0 (1 / 2) ≤ 1) ∧
    ((-3 : ℚ) - 1 / 2 > epsilon * max |(1 : ℚ)| |(0 : ℚ)| →
      0 ≤ ((1 : ℚ) - 1 / 2) / (-3 - 1 / 2)) ∧
    ((-3 : ℚ) - 1 / 2 < -(epsilon * max |(1 : ℚ)| |(0 : ℚ)|) →
      0 ≤ ((0 : ℚ) - 1 / 2) / (-3 - 1 / 2))) :=
  ⟨by decide!, alpha_stencil_unit_interval (-3 : ℚ) 1 0 (1 / 2) (by decide!) (by decide!)⟩

/-- C6: for `q_min ≤ q_hat ≤ q_max` and any reference `state`,
`amrex_calc_alpha_stencil` returns exactly `1`. -/
theorem alpha_stencil_inside_bounds (q_hat q_max q_min state : K)
    (h1 : q_min ≤ q_hat) (h2 : q_hat ≤ q_max) :
    amrex_calc_alpha_stencil q_hat q_max q_min state = 1 :=
  alpha_stencil_eq_one q_hat q_max q_min state (fun _ => h2) (fun _ => h1)

/-- Witness of C6 on the boundary: `q_hat = q_max = 1` with `state = 0 < q_max`. -/
theorem alpha_stencil_inside_bounds_witness :
    ((0 : ℚ) ≤ 1 ∧ (1 : ℚ) ≤ 1) ∧ amrex_calc_alpha_stencil (1 : ℚ) 1 0 0 = 1 :=
  ⟨by decide!, alpha_stencil_inside_bounds (1 : ℚ) 1 0 0 (by decide!) (by decide!)⟩

/-- C7, as stated, fails: with `bound_max = 1`, `bound_min = 0`, `reference = 1/2` and
`predicted = bound_max + 1`, the evaluator does not return `1/2`. -/
theorem alpha_stencil_worked_example_not_half :
    amrex_calc_alpha_stencil ((1 : ℚ) + 1) 1 0 (1 / 2) ≠ 1 / 2 := by
  decide!

/-- C7, amended: with `bound_max = 1`, `bound_min = 0`, `reference = 1/2` and
`predicted = bound_max + 1 = 2`, the evaluator returns `(1 - 1/2) / (2 - 1/2) = 1/3`. -/
theorem alpha_stencil_worked_example :
    amrex_calc_alpha_stencil ((1 : K) + 1) 1 0 (1 / 2) = 1 / 3 := by
  have hs : (0 : K) < epsilon := epsilon_pos
  have e : epsilon * max |(1 : K)| |(0 : K)| = epsilon := by
    rw [abs_one, abs_zero, max_eq_left zero_le_one, mul_one]
  have hlt : (epsilon : K) < 1 := by
    unfold epsilon
    rw [div_lt_one (by positivity)]
    norm_num
  unfold amrex_calc_alpha_stencil
  simp only []
  rw [e, if_pos (by linarith)]
  norm_num

/-! ## The stencil limiter `amrex_calc_centroid_limiter` -/

/-- C4: every component of the vector returned by `amrex_calc_centroid_limiter` lies
in `[0,1]`, in two and in three dimensions, for every cell, field, flag, centroid
table and gradient. -/
theorem centroid_limiter_unit_interval (i j k n : Int) (state : Array4 K)
    (flag : FlagArray) (ccent : Array4 K) :
    (∀ (slopes : Fin 2 → K) (a : Fin 2),
      0 ≤ amrex_calc_centroid_limiter_2d i j k n state flag slopes ccent a ∧
        amrex_calc_centroid_limiter_2d i j k n state flag slopes ccent a ≤ 1) ∧
    (∀ (slopes : Fin 3 → K) (a : Fin 3),
      0 ≤ amrex_calc_centroid_limiter_3d i j k n state flag slopes ccent a ∧
        amrex_calc_centroid_limiter_3d i j k n state flag slopes ccent a ≤ 1) :=
  ⟨fun slopes a =>
      ⟨limiter_2d_nonneg i j k n state flag ccent slopes a,
        limiter_2d_le_one i j k n state flag ccent slopes a⟩,
    fun slopes a =>
      ⟨limiter_3d_nonneg i j k n state flag ccent slopes a,
        limiter_3d_le_one i j k n state flag ccent slopes a⟩⟩

/-- C2: for every input and every axis `a`, the scale returned by
`amrex_calc_centroid_limiter` is the least element of the set made of `1` and of the
values `amrex_calc_alpha_stencil(q_hat, q_max, q_min, state(cell))` at exactly those of
the 9 (2D) or 27 (3D) offsets that are connected, fail the bounds test, and have
`|delta_a| > epsilon`. -/
theorem centroid_limiter_closed_form (i j k n : Int) (state : Array4 K)
    (flag : FlagArray) (ccent : Array4 K) :
    (∀ (slopes : Fin 2 → K) (a : Fin 2),
      IsLeast
        {x : K | x = 1 ∨ ∃ ii ∈ loop_range, ∃ jj ∈ loop_range,
          ((flag i j k).isConnected ii jj 0 = true ∧
            out_of_bounds (q_hat_2d i j k n state slopes ccent ii jj 0)
              (q_max i j k n state ii jj 0) (q_min i j k n state ii jj 0) ∧
            |delta_2d i j k ccent ii jj 0 a| > epsilon) ∧
          x = amrex_calc_alpha_stencil (q_hat_2d i j k n state slopes ccent ii jj 0)
            (q_max i j k n state ii jj 0) (q_min i j k n state ii jj 0) (state i j k n)}
        (amrex_calc_centroid_limiter_2d i j k n state flag slopes ccent a)) ∧
    (∀ (slopes : Fin 3 → K) (a : Fin 3),
      IsLeast
        {x : K | x = 1 ∨ ∃ ii ∈ loop_range, ∃ jj ∈ loop_range, ∃ kk ∈ loop_range,
          ((flag i j k).isConnected ii jj kk = true ∧
            out_of_bounds (q_hat_3d i j k n state slopes ccent ii jj kk)
              (q_max i j k n state ii jj kk) (q_min i j k n state ii jj kk) ∧
            |delta_3d i j k ccent ii jj kk a| > epsilon) ∧
          x = amrex_calc_alpha_stencil (q_hat_3d i j k n state slopes ccent ii jj kk)
            (q_max i j k n state ii jj kk) (q_min i j k n state ii jj kk) (state i j k n)}
        (amrex_calc_centroid_limiter_3d i j k n state flag slopes ccent a)) := by
  constructor
  · intro slopes a
    constructor
    · rw [limiter_2d_eq_foldMin]
      rcases foldMin_attained
          (fun o => tightens_2d i j k n state flag slopes ccent o.1 o.2.1 o.2.2 a)
          (fun o => new_lim_2d i j k n state slopes ccent o.1 o.2.1 o.2.2) stencil_2d 1
        with h | ⟨o, ho, hp, h⟩
      · exact Or.inl h
      · obtain ⟨ii, jj, kk⟩ := o
        obtain ⟨hi, hj, rfl⟩ := (mem_stencil_2d ii jj kk).1 ho
        exact Or.inr ⟨ii, hi, jj, hj, hp, h⟩
    · rintro x (rfl | ⟨ii, hi, jj, hj, hp, rfl⟩)
      · exact limiter_2d_le_one i j k n state flag ccent slopes a
      · exact limiter_2d_le_new_lim i j k n state flag ccent slopes a ii jj hi hj hp
  · intro slopes a
    constructor
    · rw [limiter_3d_eq_foldMin]
      rcases foldMin_attained
          (fun o => tightens_3d i j k n state flag slopes ccent o.1 o.2.1 o.2.2 a)
          (fun o => new_lim_3d i j k n state slopes ccent o.1 o.2.1 o.2.2) stencil_3d 1
        with h | ⟨o, ho, hp, h⟩
      · exact Or.inl h
      · obtain ⟨ii, jj, kk⟩ := o
        obtain ⟨hi, hj, hk⟩ := (mem_stencil_3d ii jj kk).1 ho
        exact Or.inr ⟨ii, hi, jj, hj, kk, hk, hp, h⟩
    · rintro x (rfl | ⟨ii, hi, jj, hj, kk, hk, hp, rfl⟩)
      · exact limiter_3d_le_one i j k n state flag ccent slopes a
      · exact limiter_3d_le_new_lim i j k n state flag ccent slopes a ii jj kk hi hj hk hp

/-- C10: if every connected stencil offset has `|delta_a| ≤ epsilon` along axis `a`,
the scale returned for axis `a` is exactly `1`, whatever the field and gradient are
(two and three dimensions). -/
theorem centroid_limiter_isolation (i j k n : Int) (state : Array4 K)
    (flag : FlagArray) (ccent : Array4 K) :
    (∀ (slopes : Fin 2 → K) (a : Fin 2),
      (∀ ii ∈ loop_range, ∀ jj ∈ loop_range, (flag i j k).isConnected ii jj 0 = true →
        |delta_2d i j k ccent ii jj 0 a| ≤ epsilon) →
      amrex_calc_centroid_limiter_2d i j k n state flag slopes ccent a = 1) ∧
    (∀ (slopes : Fin 3 → K) (a : Fin 3),
      (∀ ii ∈ loop_range, ∀ jj ∈ loop_range, ∀ kk ∈ loop_range,
        (flag i j k).isConnected ii jj kk = true →
        |delta_3d i j k ccent ii jj kk a| ≤ epsilon) →
      amrex_calc_centroid_limiter_3d i j k n state flag slopes ccent a = 1) := by
  constructor
  · intro slopes a h
    rw [limiter_2d_eq_foldMin]
    apply foldMin_eq_init
    rintro ⟨ii, jj, kk⟩ ho ⟨hc, _, hd⟩
    obtain ⟨hi, hj, rfl⟩ := (mem_stencil_2d ii jj kk).1 ho
    exact absurd (h ii hi jj hj hc) (not_le.2 hd)
  · intro slopes a h
    rw [limiter_3d_eq_foldMin]
    apply foldMin_eq_init
    rintro ⟨ii, jj, kk⟩ ho ⟨hc, _, hd⟩
    obtain ⟨hi, hj, hk⟩ := (mem_stencil_3d ii jj kk).1 ho
    exact absurd (h ii hi jj hj kk hk hc) (not_le.2 hd)

/-- Witness of C10 on the x axis: with `column_flag` only offsets with `ii = 0` are
connected, all with `delta_x = 0`; the x scale is `1`. -/
theorem centroid_limiter_isolation_witness :
    ((∀ ii ∈ loop_range, ∀ jj ∈ loop_range,
        (column_flag 0 0 0).isConnected ii jj 0 = true →
        |delta_2d 0 0 0 ex_ccent ii jj 0 0| ≤ epsilon) ∧
      amrex_calc_centroid_limiter_2d 0 0 0 0 ex_state column_flag ex_slopes_2d ex_ccent 0
        = 1) ∧
    ((∀ ii ∈ loop_range, ∀ jj ∈ loop_range, ∀ kk ∈ loop_range,
        (column_flag 0 0 0).isConnected ii jj kk = true →
        |delta_3d 0 0 0 ex_ccent ii jj kk 0| ≤ epsilon) ∧
      amrex_calc_centroid_limiter_3d 0 0 0 0 ex_state column_flag ex_slopes_3d ex_ccent 0
        = 1) :=
  ⟨⟨by decide!,
      (centroid_limiter_isolation 0 0 0 0 ex_state column_flag ex_ccent).1 ex_slopes_2d 0
        (by decide!)⟩,
    ⟨by decide!,
      (centroid_limiter_isolation 0 0 0 0 ex_state column_flag ex_ccent).2 ex_slopes_3d 0
        (by decide!)⟩⟩

/-- C1, as stated, fails: on the regular 2D cell `(0,0)` with field `ex_state`,
gradient `(10,-10)` and flag `ex_flag`, the limiter returns `(1/10, 1)`; at the
connected diagonal neighbour `(1,1)` the prediction recomputed with the limited
gradient is `-9`, outside `[q_min - epsilon, q_max + epsilon] = [-1e-12, 1e-12]`. -/
theorem centroid_limiter_not_monotone :
    (ex_flag 0 0 0).isConnected 1 1 0 = true ∧
    ¬ (q_min 0 0 0 0 ex_state 1 1 0 - epsilon ≤
          q_hat_2d 0 0 0 0 ex_state
            (fun a => amrex_calc_centroid_limiter_2d 0 0 0 0 ex_state ex_flag
              ex_slopes_2d ex_ccent a * ex_slopes_2d a) ex_ccent 1 1 0 ∧
        q_hat_2d 0 0 0 0 ex_state
            (fun a => amrex_calc_centroid_limiter_2d 0 0 0 0 ex_state ex_flag
              ex_slopes_2d ex_ccent a * ex_slopes_2d a) ex_ccent 1 1 0 ≤
          q_max 0 0 0 0 ex_state 1 1 0 + epsilon) := by
  decide!

/-- C1, amended: in exact arithmetic, for every connected stencil offset that has an
axis `a` with
`|delta_a| > epsilon` such that every axis either carries the same returned scale as
`a` or contributes nothing to the prediction (`delta_b * gradient_b = 0`), the
prediction recomputed with the limited gradient lies in
`[q_min - small, q_max + small]`, `small = epsilon * max(|q_max|, |q_min|)`
(two and three dimensions). -/
theorem centroid_limiter_monotone_shared_scale (i j k n : Int) (state : Array4 K)
    (flag : FlagArray) (ccent : Array4 K) :
    (∀ (slopes : Fin 2 → K) (a : Fin 2), ∀ ii ∈ loop_range, ∀ jj ∈ loop_range,
      (flag i j k).isConnected ii jj 0 = true →
      |delta_2d i j k ccent ii jj 0 a| > epsilon →
      (∀ b : Fin 2,
        amrex_calc_centroid_limiter_2d i j k n state flag slopes ccent b =
            amrex_calc_centroid_limiter_2d i j k n state flag slopes ccent a ∨
          delta_2d i j k ccent ii jj 0 b * slopes b = 0) →
      q_min i j k n state ii jj 0 -
            epsilon * max |q_max i j k n state ii jj 0| |q_min i j k n state ii jj 0| ≤
          q_hat_2d i j k n state
            (fun b => amrex_calc_centroid_limiter_2d i j k n state flag slopes ccent b *
              slopes b) ccent ii jj 0 ∧
        q_hat_2d i j k n state
            (fun b => amrex_calc_centroid_limiter_2d i j k n state flag slopes ccent b *
              slopes b) ccent ii jj 0 ≤
          q_max i j k n state ii jj 0 +
            epsilon * max |q_max i j k n state ii jj 0| |q_min i j k n state ii jj 0|) ∧
    (∀ (slopes : Fin 3 → K) (a : Fin 3), ∀ ii ∈ loop_range, ∀ jj ∈ loop_range,
      ∀ kk ∈ loop_range,
      (flag i j k).isConnected ii jj kk = true →
      |delta_3d i j k ccent ii jj kk a| > epsilon →
      (∀ b : Fin 3,
        amrex_calc_centroid_limiter_3d i j k n state flag slopes ccent b =
            amrex_calc_centroid_limiter_3d i j k n state flag slopes ccent a ∨
          delta_3d i j k ccent ii jj kk b * slopes b = 0) →
      q_min i j k n state ii jj kk -
            epsilon * max |q_max i j k n state ii jj kk| |q_min i j k n state ii jj kk| ≤
          q_hat_3d i j k n state
            (fun b => amrex_calc_centroid_limiter_3d i j k n state flag slopes ccent b *
              slopes b) ccent ii jj kk ∧
        q_hat_3d i j k n state
            (fun b => amrex_calc_centroid_limiter_3d i j k n state flag slopes ccent b *
              slopes b) ccent ii jj kk ≤
          q_max i j k n state ii jj kk +
            epsilon * max |q_max i j k n state ii jj kk| |q_min i j k n state ii jj kk|) := by
  constructor
  · intro slopes a ii hi jj hj hc hd hb
    have key : ∀ b : Fin 2,
        delta_2d i j k ccent ii jj 0 b *
            (amrex_calc_centroid_limiter_2d i j k n state flag slopes ccent b * slopes b) =
          delta_2d i j k ccent ii jj 0 b *
            (amrex_calc_centroid_limiter_2d i j k n state flag slopes ccent a * slopes b) := by
      intro b
      rcases hb b with e | e
      · rw [e]
      · rw [mul_left_comm, e, mul_zero, mul_left_comm, e, mul_zero]
    have e : q_hat_2d i j k n state
          (fun b => amrex_calc_centroid_limiter_2d i j k n state flag slopes ccent b *
            slopes b) ccent ii jj 0 =
        q_hat_2d i j k n state
          (fun b => amrex_calc_centroid_limiter_2d i j k n state flag slopes ccent a *
            slopes b) ccent ii jj 0 := by
      have k0 := key 0
      have k1 := key 1
      simp only [delta_2d, Matrix.cons_val_zero, Matrix.cons_val_one, Matrix.head_cons]
        at k0 k1
      unfold q_hat_2d
      rw [k0, k1]
    rw [e]
    exact q_hat_2d_scaled_within i j k n state ccent slopes _ ii jj 0
      (limiter_2d_nonneg i j k n state flag ccent slopes a)
      (limiter_2d_le_one i j k n state flag ccent slopes a)
      (fun hv => limiter_2d_le_new_lim i j k n state flag ccent slopes a ii jj hi hj
        ⟨hc, hv, hd⟩)
  · intro slopes a ii hi jj hj kk hk hc hd hb
    have key : ∀ b : Fin 3,
        delta_3d i j k ccent ii jj kk b *
            (amrex_calc_centroid_limiter_3d i j k n state flag slopes ccent b * slopes b) =
          delta_3d i j k ccent ii jj kk b *
            (amrex_calc_centroid_limiter_3d i j k n state flag slopes ccent a * slopes b) := by
      intro b
      rcases hb b with e | e
      · rw [e]
      · rw [mul_left_comm, e, mul_zero, mul_left_comm, e, mul_zero]
    have e : q_hat_3d i j k n state
          (fun b => amrex_calc_centroid_limiter_3d i j k n state flag slopes ccent b *
            slopes b) ccent ii jj kk =
        q_hat_3d i j k n state
          (fun b => amrex_calc_centroid_limiter_3d i j k n state flag slopes ccent a *
            slopes b) ccent ii jj kk := by
      have k0 := key 0
      have k1 := key 1
      have k2 := key 2
      simp only [delta_3d, Matrix.cons_val_zero, Matrix.cons_val_one, Matrix.head_cons,
        Matrix.cons_val_two, Matrix.tail_cons] at k0 k1 k2
      unfold q_hat_3d
      rw [k0, k1, k2]
    rw [e]
    exact q_hat_3d_scaled_within i j k n state ccent slopes _ ii jj kk
      (limiter_3d_nonneg i j k n state flag ccent slopes a)
      (limiter_3d_le_one i j k n state flag ccent slopes a)
      (fun hv => limiter_3d_le_new_lim i j k n state flag ccent slopes a ii jj kk hi hj hk
        ⟨hc, hv, hd⟩)

/-- Witness of the amended C1 at the face neighbour `(1,0,0)` of the cell `(0,0,0)`,
axis x, for the inputs of the counterexample: the returned scales are `(1/10, 1)` and
`(1/10, 1, 1)`, and the other axes have `delta = 0` there. -/
theorem centroid_limiter_monotone_shared_scale_witness :
    (((1 : Int) ∈ loop_range ∧ (0 : Int) ∈ loop_range ∧
        (ex_flag 0 0 0).isConnected 1 0 0 = true ∧
        |delta_2d 0 0 0 ex_ccent 1 0 0 0| > epsilon ∧
        ∀ b : Fin 2,
          amrex_calc_centroid_limiter_2d 0 0 0 0 ex_state ex_flag ex_slopes_2d ex_ccent b =
              amrex_calc_centroid_limiter_2d 0 0 0 0 ex_state ex_flag ex_slopes_2d ex_ccent 0 ∨
            delta_2d 0 0 0 ex_ccent 1 0 0 b * ex_slopes_2d b = 0) ∧
      (q_min 0 0 0 0 ex_state 1 0 0 -
            epsilon * max |q_max 0 0 0 0 ex_state 1 0 0| |q_min 0 0 0 0 ex_state 1 0 0| ≤
          q_hat_2d 0 0 0 0 ex_state
            (fun b => amrex_calc_centroid_limiter_2d 0 0 0 0 ex_state ex_flag ex_slopes_2d
              ex_ccent b * ex_slopes_2d b) ex_ccent 1 0 0 ∧
        q_hat_2d 0 0 0 0 ex_state
            (fun b => amrex_calc_centroid_limiter_2d 0 0 0 0 ex_state ex_flag ex_slopes_2d
              ex_ccent b * ex_slopes_2d b) ex_ccent 1 0 0 ≤
          q_max 0 0 0 0 ex_state 1 0 0 +
            epsilon * max |q_max 0 0 0 0 ex_state 1 0 0| |q_min 0 0 0 0 ex_state 1 0 0|)) ∧
    (((1 : Int) ∈ loop_range ∧ (0 : Int) ∈ loop_range ∧
        (ex_flag 0 0 0).isConnected 1 0 0 = true ∧
        |delta_3d 0 0 0 ex_ccent 1 0 0 0| > epsilon ∧
        ∀ b : Fin 3,
          amrex_calc_centroid_limiter_3d 0 0 0 0 ex_state ex_flag ex_slopes_3d ex_ccent b =
              amrex_calc_centroid_limiter_3d 0 0 0 0 ex_state ex_flag ex_slopes_3d ex_ccent 0 ∨
            delta_3d 0 0 0 ex_ccent 1 0 0 b * ex_slopes_3d b = 0) ∧
      (q_min 0 0 0 0 ex_state 1 0 0 -
            epsilon * max |q_max 0 0 0 0 ex_state 1 0 0| |q_min 0 0 0 0 ex_state 1 0 0| ≤
          q_hat_3d 0 0 0 0 ex_state
            (fun b => amrex_calc_centroid_limiter_3d 0 0 0 0 ex_state ex_flag ex_slopes_3d
              ex_ccent b * ex_slopes_3d b) ex_ccent 1 0 0 ∧
        q_hat_3d 0 0 0 0 ex_state
            (fun b => amrex_calc_centroid_limiter_3d 0 0 0 0 ex_state ex_flag ex_slopes_3d
              ex_ccent b * ex_slopes_3d b) ex_ccent 1 0 0 ≤
          q_max 0 0 0 0 ex_state 1 0 0 +
            epsilon * max |q_max 0 0 0 0 ex_state 1 0 0| |q_min 0 0 0 0 ex_state 1 0 0|)) :=
  ⟨⟨by decide!,
      (centroid_limiter_monotone_shared_scale 0 0 0 0 ex_state ex_flag ex_ccent).1
        ex_slopes_2d 0 1 (by decide!) 0 (by decide!) (by decide!) (by decide!) (by decide!)⟩,
    ⟨by decide!,
      (centroid_limiter_monotone_shared_scale 0 0 0 0 ex_state ex_flag ex_ccent).2
        ex_slopes_3d 0 1 (by decide!) 0 (by decide!) 0 (by decide!) (by decide!)
        (by decide!) (by decide!)⟩⟩

/-- C8, as stated, fails: on a 2D cell whose nine stencil values all equal `1`, with
gradient `(1,0)`, zero centroid offsets and every offset connected, the x scale
returned by the limiter is not `1` (it is `0`). -/
theorem centroid_limiter_constant_field_not_one :
    (∀ ii ∈ loop_range, ∀ jj ∈ loop_range,
      const_state (0 + ii) (0 + jj) 0 0 = const_state 0 0 0 0) ∧
    amrex_calc_centroid_limiter_2d 0 0 0 0 const_state all_connected unit_x_slopes
      ex_ccent 0 ≠ 1 := by
  decide!

/-- C8, amended: in 2D, if the cell and all eight neighbours hold the same value `c`,
the scale of axis `a` is `0` when some connected offset has `|delta_a| > epsilon` and
a prediction with `|q_hat - c| > epsilon * |c|`, and is `1` otherwise. -/
theorem centroid_limiter_constant_field (i j k n : Int) (state : Array4 K)
    (flag : FlagArray) (slopes : Fin 2 → K) (ccent : Array4 K) (a : Fin 2)
    (hconst : ∀ ii ∈ loop_range, ∀ jj ∈ loop_range,
      state (i + ii) (j + jj) k n = state i j k n) :
    ((∃ ii ∈ loop_range, ∃ jj ∈ loop_range,
        (flag i j k).isConnected ii jj 0 = true ∧
        |delta_2d i j k ccent ii jj 0 a| > epsilon ∧
        |q_hat_2d i j k n state slopes ccent ii jj 0 - state i j k n| >
          epsilon * |state i j k n|) →
      amrex_calc_centroid_limiter_2d i j k n state flag slopes ccent a = 0) ∧
    ((¬ ∃ ii ∈ loop_range, ∃ jj ∈ loop_range,
        (flag i j k).isConnected ii jj 0 = true ∧
        |delta_2d i j k ccent ii jj 0 a| > epsilon ∧
        |q_hat_2d i j k n state slopes ccent ii jj 0 - state i j k n| >
          epsilon * |state i j k n|) →
      amrex_calc_centroid_limiter_2d i j k n state flag slopes ccent a = 1) := by
  have hM : ∀ ii ∈ loop_range, ∀ jj ∈ loop_range,
      q_max i j k n state ii jj 0 = state i j k n := by
    intro ii hi jj hj
    unfold q_max
    rw [add_zero, hconst ii hi jj hj, max_self]
  have hm : ∀ ii ∈ loop_range, ∀ jj ∈ loop_range,
      q_min i j k n state ii jj 0 = state i j k n := by
    intro ii hi jj hj
    unfold q_min
    rw [add_zero, hconst ii hi jj hj, min_self]
  constructor
  · rintro ⟨ii, hi, jj, hj, hc, hd, hq⟩
    have hv := (out_of_bounds_const _ _).2 hq
    have hle := limiter_2d_le_new_lim i j k n state flag ccent slopes a ii jj hi hj
      ⟨hc, by rw [hM ii hi jj hj, hm ii hi jj hj]; exact hv, hd⟩
    have h0 : new_lim_2d i j k n state slopes ccent ii jj 0 = 0 := by
      unfold new_lim_2d
      rw [hM ii hi jj hj, hm ii hi jj hj]
      exact alpha_stencil_const _ _ hv
    rw [h0] at hle
    exact le_antisymm hle (limiter_2d_nonneg i j k n state flag ccent slopes a)
  · intro hne
    rw [limiter_2d_eq_foldMin]
    apply foldMin_eq_init
    rintro ⟨ii, jj, kk⟩ ho ⟨hc, hv, hd⟩
    obtain ⟨hi, hj, rfl⟩ := (mem_stencil_2d ii jj kk).1 ho
    dsimp only at hc hv hd
    rw [hM ii hi jj hj, hm ii hi jj hj] at hv
    exact absurd ⟨ii, hi, jj, hj, hc, hd, (out_of_bounds_const _ _).1 hv⟩ hne

/-- Witness of the amended C8: constant field `1`, gradient `(1,0)`, regular cells.
With every offset connected the x scale is `0`; with only the offsets `ii = 0`
connected the y scale is `1`. -/
theorem centroid_limiter_constant_field_witness :
    (∀ ii ∈ loop_range, ∀ jj ∈ loop_range,
      const_state (0 + ii) (0 + jj) 0 0 = const_state 0 0 0 0) ∧
    amrex_calc_centroid_limiter_2d 0 0 0 0 const_state all_connected unit_x_slopes
      ex_ccent 0 = 0 ∧
    amrex_calc_centroid_limiter_2d 0 0 0 0 const_state column_flag unit_x_slopes
      ex_ccent 1 = 1 :=
  ⟨by decide!,
    (centroid_limiter_constant_field 0 0 0 0 const_state all_connected unit_x_slopes
      ex_ccent 0 (by decide!)).1 ⟨1, by decide!, 0, by decide!, by decide!, by decide!,
        by decide!⟩,
    (centroid_limiter_constant_field 0 0 0 0 const_state column_flag unit_x_slopes
      ex_ccent 1 (by decide!)).2 (by decide!)⟩

section foldMin_more
variable {β : Type} (p q : β → Prop) [DecidablePred p] [DecidablePred q] (v w : β → K)

/-- The running minimum depends only on which elements are selected and on the values
of the selected ones. -/
theorem foldMin_congr (l : List β) (init : K)
    (h : ∀ o ∈ l, (p o ↔ q o) ∧ (p o → v o = w o)) :
    foldMin p v l init = foldMin q w l init := by
  induction l generalizing init with
  | nil => rfl
  | cons x l ih =>
    rw [foldMin_cons, foldMin_cons]
    obtain ⟨hpq, hv⟩ := h x (List.mem_cons_self _ _)
    have e : (if p x then min init (v x) else init) =
        (if q x then min init (w x) else init) := by
      by_cases hp : p x
      · rw [if_pos hp, if_pos (hpq.1 hp), hv hp]
      · rw [if_neg hp, if_neg (fun hq => hp (hpq.2 hq))]
    rw [e]
    exact ih _ (fun o ho => h o (List.mem_cons_of_mem _ ho))

/-- The running minimum does not depend on the order of the list. -/
theorem foldMin_perm (l l' : List β) (init : K) (h : l.Perm l') :
    foldMin p v l init = foldMin p v l' init := by
  unfold foldMin
  refine List.Perm.foldl_eq' h ?_ init
  intro x _ y _ z
  by_cases hx : p x <;> by_cases hy : p y <;> simp [hx, hy, min_right_comm]

/-- A running minimum started at `0` over non-negative values stays `0`. -/
theorem foldMin_zero (l : List β) (h : ∀ o ∈ l, p o → 0 ≤ v o) :
    foldMin p v l 0 = 0 :=
  foldMin_eq_init p v l 0 h

end foldMin_more

/-- Offsets at which two inputs agree on the values the 2D loop body reads yield the
same prediction, bounds and displacements. -/
theorem offset_data_2d_congr (i j k n : Int) (state1 state2 : Array4 K)
    (ccent1 ccent2 : Array4 K) (slopes : Fin 2 → K) (ii jj kk : Int)
    (hcell : state1 i j k n = state2 i j k n)
    (h0 : ccent1 i j k 0 = ccent2 i j k 0) (h1 : ccent1 i j k 1 = ccent2 i j k 1)
    (hs : state1 (i + ii) (j + jj) (k + kk) n = state2 (i + ii) (j + jj) (k + kk) n)
    (hc0 : ccent1 (i + ii) (j + jj) (k + kk) 0 = ccent2 (i + ii) (j + jj) (k + kk) 0)
    (hc1 : ccent1 (i + ii) (j + jj) (k + kk) 1 = ccent2 (i + ii) (j + jj) (k + kk) 1) :
    q_hat_2d i j k n state1 slopes ccent1 ii jj kk =
        q_hat_2d i j k n state2 slopes ccent2 ii jj kk ∧
      q_max i j k n state1 ii jj kk = q_max i j k n state2 ii jj kk ∧
      q_min i j k n state1 ii jj kk = q_min i j k n state2 ii jj kk ∧
      delta_2d i j k ccent1 ii jj kk = delta_2d i j k ccent2 ii jj kk := by
  have ex : delta_x i j k ccent1 ii jj kk = delta_x i j k ccent2 ii jj kk := by
    unfold delta_x; rw [hc0, h0]
  have ey : delta_y i j k ccent1 ii jj kk = delta_y i j k ccent2 ii jj kk := by
    unfold delta_y; rw [hc1, h1]
  refine ⟨?_, ?_, ?_, ?_⟩
  · unfold q_hat_2d; rw [hcell, ex, ey]
  · unfold q_max; rw [hcell, hs]
  · unfold q_min; rw [hcell, hs]
  · unfold delta_2d; rw [ex, ey]

/-- Offsets at which two inputs agree on the values the 3D loop body reads yield the
same prediction, bounds and displacements. -/
theorem offset_data_3d_congr (i j k n : Int) (state1 state2 : Array4 K)
    (ccent1 ccent2 : Array4 K) (slopes : Fin 3 → K) (ii jj kk : Int)
    (hcell : state1 i j k n = state2 i j k n)
    (h0 : ccent1 i j k 0 = ccent2 i j k 0) (h1 : ccent1 i j k 1 = ccent2 i j k 1)
    (h2 : ccent1 i j k 2 = ccent2 i j k 2)
    (hs : state1 (i + ii) (j + jj) (k + kk) n = state2 (i + ii) (j + jj) (k + kk) n)
    (hc0 : ccent1 (i + ii) (j + jj) (k + kk) 0 = ccent2 (i + ii) (j + jj) (k + kk) 0)
    (hc1 : ccent1 (i + ii) (j + jj) (k + kk) 1 = ccent2 (i + ii) (j + jj) (k + kk) 1)
    (hc2 : ccent1 (i + ii) (j + jj) (k + kk) 2 = ccent2 (i + ii) (j + jj) (k + kk) 2) :
    q_hat_3d i j k n state1 slopes ccent1 ii jj kk =
        q_hat_3d i j k n state2 slopes ccent2 ii jj kk ∧
      q_max i j k n state1 ii jj kk = q_max i j k n state2 ii jj kk ∧
      q_min i j k n state1 ii jj kk = q_min i j k n state2 ii jj kk ∧
      delta_3d i j k ccent1 ii jj kk = delta_3d i j k ccent2 ii jj kk := by
  have ex : delta_x i j k ccent1 ii jj kk = delta_x i j k ccent2 ii jj kk := by
    unfold delta_x; rw [hc0, h0]
  have ey : delta_y i j k ccent1 ii jj kk = delta_y i j k ccent2 ii jj kk := by
    unfold delta_y; rw [hc1, h1]
  have ez : delta_z i j k ccent1 ii jj kk = delta_z i j k ccent2 ii jj kk := by
    unfold delta_z; rw [hc2, h2]
  refine ⟨?_, ?_, ?_, ?_⟩
  · unfold q_hat_3d; rw [hcell, ex, ey, ez]
  · unfold q_max; rw [hcell, hs]
  · unfold q_min; rw [hcell, hs]
  · unfold delta_3d; rw [ex, ey, ez]

/-! ## Hyperproperties and refinements of the stencil limiter -/

/-- C11: two inputs of `amrex_calc_centroid_limiter` that share the cell's
connectivity flag, the gradient, and the field and centroid values at the cell and at
every connected offset return the same scale vector, however they differ at the
disconnected offsets (two and three dimensions). -/
theorem centroid_limiter_disconnected_exclusion (i j k n : Int)
    (state1 state2 : Array4 K) (flag1 flag2 : FlagArray) (ccent1 ccent2 : Array4 K)
    (hflag : flag1 i j k = flag2 i j k) (hcell : state1 i j k n = state2 i j k n) :
    (∀ slopes : Fin 2 → K,
      ccent1 i j k 0 = ccent2 i j k 0 → ccent1 i j k 1 = ccent2 i j k 1 →
      (∀ ii ∈ loop_range, ∀ jj ∈ loop_range,
        (flag1 i j k).isConnected ii jj 0 = true →
          state1 (i + ii) (j + jj) k n = state2 (i + ii) (j + jj) k n ∧
          ccent1 (i + ii) (j + jj) k 0 = ccent2 (i + ii) (j + jj) k 0 ∧
          ccent1 (i + ii) (j + jj) k 1 = ccent2 (i + ii) (j + jj) k 1) →
      amrex_calc_centroid_limiter_2d i j k n state1 flag1 slopes ccent1 =
        amrex_calc_centroid_limiter_2d i j k n state2 flag2 slopes ccent2) ∧
    (∀ slopes : Fin 3 → K,
      ccent1 i j k 0 = ccent2 i j k 0 → ccent1 i j k 1 = ccent2 i j k 1 →
      ccent1 i j k 2 = ccent2 i j k 2 →
      (∀ ii ∈ loop_range, ∀ jj ∈ loop_range, ∀ kk ∈ loop_range,
        (flag1 i j k).isConnected ii jj kk = true →
          state1 (i + ii) (j + jj) (k + kk) n = state2 (i + ii) (j + jj) (k + kk) n ∧
          ccent1 (i + ii) (j + jj) (k + kk) 0 = ccent2 (i + ii) (j + jj) (k + kk) 0 ∧
          ccent1 (i + ii) (j + jj) (k + kk) 1 = ccent2 (i + ii) (j + jj) (k + kk) 1 ∧
          ccent1 (i + ii) (j + jj) (k + kk) 2 = ccent2 (i + ii) (j + jj) (k + kk) 2) →
      amrex_calc_centroid_limiter_3d i j k n state1 flag1 slopes ccent1 =
        amrex_calc_centroid_limiter_3d i j k n state2 flag2 slopes ccent2) := by
  constructor
  · intro slopes h0 h1 hnb
    funext a
    rw [limiter_2d_eq_foldMin, limiter_2d_eq_foldMin]
    apply foldMin_congr
    rintro ⟨ii, jj, kk⟩ ho
    obtain ⟨hi, hj, rfl⟩ := (mem_stencil_2d ii jj kk).1 ho
    dsimp only
    unfold tightens_2d new_lim_2d
    rw [← hflag]
    by_cases hc : (flag1 i j k).isConnected ii jj 0 = true
    · obtain ⟨hs, hc0, hc1⟩ := hnb ii hi jj hj hc
      obtain ⟨e1, e2, e3, e4⟩ := offset_data_2d_congr i j k n state1 state2 ccent1 ccent2
        slopes ii jj 0 hcell h0 h1 (by rw [add_zero]; exact hs) (by rw [add_zero]; exact hc0)
        (by rw [add_zero]; exact hc1)
      rw [e1, e2, e3, e4, hcell]
      exact ⟨Iff.rfl, fun _ => rfl⟩
    · exact ⟨⟨fun h => absurd h.1 hc, fun h => absurd h.1 hc⟩, fun h => absurd h.1 hc⟩
  · intro slopes h0 h1 h2 hnb
    funext a
    rw [limiter_3d_eq_foldMin, limiter_3d_eq_foldMin]
    apply foldMin_congr
    rintro ⟨ii, jj, kk⟩ ho
    obtain ⟨hi, hj, hk⟩ := (mem_stencil_3d ii jj kk).1 ho
    dsimp only
    unfold tightens_3d new_lim_3d
    rw [← hflag]
    by_cases hc : (flag1 i j k).isConnected ii jj kk = true
    · obtain ⟨hs, hc0, hc1, hc2⟩ := hnb ii hi jj hj kk hk hc
      obtain ⟨e1, e2, e3, e4⟩ := offset_data_3d_congr i j k n state1 state2 ccent1 ccent2
        slopes ii jj kk hcell h0 h1 h2 hs hc0 hc1 hc2
      rw [e1, e2, e3, e4, hcell]
      exact ⟨Iff.rfl, fun _ => rfl⟩
    · exact ⟨⟨fun h => absurd h.1 hc, fun h => absurd h.1 hc⟩, fun h => absurd h.1 hc⟩

/-- Witness of C11: `ex_state_alt` and `ex_ccent_alt` differ from `ex_state` and
`ex_ccent` on the column `i = -1`, which `ex_flag` does not connect to the cell
`(0,0,0)`; the returned scale vectors are the same. -/
theorem centroid_limiter_disconnected_exclusion_witness :
    ((ex_flag 0 0 0).isConnected (-1) 0 0 = false ∧
      ex_state (0 + -1) 0 0 0 ≠ ex_state_alt (0 + -1) 0 0 0 ∧
      ex_ccent (0 + -1) 0 0 0 ≠ ex_ccent_alt (0 + -1) 0 0 0) ∧
    ((∀ ii ∈ loop_range, ∀ jj ∈ loop_range,
        (ex_flag 0 0 0).isConnected ii jj 0 = true →
          ex_state (0 + ii) (0 + jj) 0 0 = ex_state_alt (0 + ii) (0 + jj) 0 0 ∧
          ex_ccent (0 + ii) (0 + jj) 0 0 = ex_ccent_alt (0 + ii) (0 + jj) 0 0 ∧
          ex_ccent (0 + ii) (0 + jj) 0 1 = ex_ccent_alt (0 + ii) (0 + jj) 0 1) ∧
      amrex_calc_centroid_limiter_2d 0 0 0 0 ex_state ex_flag ex_slopes_2d ex_ccent =
        amrex_calc_centroid_limiter_2d 0 0 0 0 ex_state_alt ex_flag ex_slopes_2d
          ex_ccent_alt) ∧
    ((∀ ii ∈ loop_range, ∀ jj ∈ loop_range, ∀ kk ∈ loop_range,
        (ex_flag 0 0 0).isConnected ii jj kk = true →
          ex_state (0 + ii) (0 + jj) (0 + kk) 0 =
            ex_state_alt (0 + ii) (0 + jj) (0 + kk) 0 ∧
          ex_ccent (0 + ii) (0 + jj) (0 + kk) 0 =
            ex_ccent_alt (0 + ii) (0 + jj) (0 + kk) 0 ∧
          ex_ccent (0 + ii) (0 + jj) (0 + kk) 1 =
            ex_ccent_alt (0 + ii) (0 + jj) (0 + kk) 1 ∧
          ex_ccent (0 + ii) (0 + jj) (0 + kk) 2 =
            ex_ccent_alt (0 + ii) (0 + jj) (0 + kk) 2) ∧
      amrex_calc_centroid_limiter_3d 0 0 0 0 ex_state ex_flag ex_slopes_3d ex_ccent =
        amrex_calc_centroid_limiter_3d 0 0 0 0 ex_state_alt ex_flag ex_slopes_3d
          ex_ccent_alt) :=
  ⟨by decide!,
    ⟨by decide!,
      (centroid_limiter_disconnected_exclusion 0 0 0 0 ex_state ex_state_alt ex_flag
        ex_flag ex_ccent ex_ccent_alt rfl (by decide!)).1 ex_slopes_2d (by decide!)
        (by decide!) (by decide!)⟩,
    ⟨by decide!,
      (centroid_limiter_disconnected_exclusion 0 0 0 0 ex_state ex_state_alt ex_flag
        ex_flag ex_ccent ex_ccent_alt rfl (by decide!)).2 ex_slopes_3d (by decide!)
        (by decide!) (by decide!) (by decide!)⟩⟩

section
variable (i j k n : Int) (state : Array4 K) (flag : FlagArray) (ccent : Array4 K)

/-- Without the pruning test the 2D loop body acts on each axis separately, for every
value of the scales. -/
theorem limiter_body_2d_noskip_eq (slopes : Fin 2 → K) (ii jj kk : Int) (acc : K × K) :
    limiter_body_2d_noskip i j k n state flag slopes ccent ii jj kk acc =
      (if tightens_2d i j k n state flag slopes ccent ii jj kk 0 then
          min acc.1 (new_lim_2d i j k n state slopes ccent ii jj kk) else acc.1,
       if tightens_2d i j k n state flag slopes ccent ii jj kk 1 then
          min acc.2 (new_lim_2d i j k n state slopes ccent ii jj kk) else acc.2) := by
  unfold limiter_body_2d_noskip tightens_2d delta_2d new_lim_2d
  by_cases hc : (flag i j k).isConnected ii jj kk = true
  · by_cases ho : out_of_bounds (q_hat_2d i j k n state slopes ccent ii jj kk)
        (q_max i j k n state ii jj kk) (q_min i j k n state ii jj kk)
    · simp [hc, ho]
    · simp [hc, ho]
  · simp [hc]

/-- Without the pruning test the 3D loop body acts on each axis separately, for every
value of the scales. -/
theorem limiter_body_3d_noskip_eq (slopes : Fin 3 → K) (ii jj kk : Int)
    (acc : K × K × K) :
    limiter_body_3d_noskip i j k n state flag slopes ccent ii jj kk acc =
      (if tightens_3d i j k n state flag slopes ccent ii jj kk 0 then
          min acc.1 (new_lim_3d i j k n state slopes ccent ii jj kk) else acc.1,
       if tightens_3d i j k n state flag slopes ccent ii jj kk 1 then
          min acc.2.1 (new_lim_3d i j k n state slopes ccent ii jj kk) else acc.2.1,
       if tightens_3d i j k n state flag slopes ccent ii jj kk 2 then
          min acc.2.2 (new_lim_3d i j k n state slopes ccent ii jj kk) else acc.2.2) := by
  unfold limiter_body_3d_noskip tightens_3d delta_3d new_lim_3d
  by_cases hc : (flag i j k).isConnected ii jj kk = true
  · by_cases ho : out_of_bounds (q_hat_3d i j k n state slopes ccent ii jj kk)
        (q_max i j k n state ii jj kk) (q_min i j k n state ii jj kk)
    · simp [hc, ho]
    · simp [hc, ho]
  · simp [hc]

/-- Folding the 2D loop body without the pruning test computes one running minimum
per axis. -/
theorem foldl_body_2d_noskip (slopes : Fin 2 → K) (l : List (Int × Int × Int))
    (acc : K × K) :
    l.foldl
        (fun acc o =>
          limiter_body_2d_noskip i j k n state flag slopes ccent o.1 o.2.1 o.2.2 acc)
        acc =
      (foldMin (fun o => tightens_2d i j k n state flag slopes ccent o.1 o.2.1 o.2.2 0)
          (fun o => new_lim_2d i j k n state slopes ccent o.1 o.2.1 o.2.2) l acc.1,
       foldMin (fun o => tightens_2d i j k n state flag slopes ccent o.1 o.2.1 o.2.2 1)
          (fun o => new_lim_2d i j k n state slopes ccent o.1 o.2.1 o.2.2) l acc.2) := by
  induction l generalizing acc with
  | nil => rfl
  | cons o l ih =>
    rw [List.foldl_cons, limiter_body_2d_noskip_eq, ih, foldMin_cons, foldMin_cons]

/-- Folding the 3D loop body without the pruning test computes one running minimum
per axis. -/
theorem foldl_body_3d_noskip (slopes : Fin 3 → K) (l : List (Int × Int × Int))
    (acc : K × K × K) :
    l.foldl
        (fun acc o =>
          limiter_body_3d_noskip i j k n state flag slopes ccent o.1 o.2.1 o.2.2 acc)
        acc =
      (foldMin (fun o => tightens_3d i j k n state flag slopes ccent o.1 o.2.1 o.2.2 0)
          (fun o => new_lim_3d i j k n state slopes ccent o.1 o.2.1 o.2.2) l acc.1,
       foldMin (fun o => tightens_3d i j k n state flag slopes ccent o.1 o.2.1 o.2.2 1)
          (fun o => new_lim_3d i j k n state slopes ccent o.1 o.2.1 o.2.2) l acc.2.1,
       foldMin (fun o => tightens_3d i j k n state flag slopes ccent o.1 o.2.1 o.2.2 2)
          (fun o => new_lim_3d i j k n state slopes ccent o.1 o.2.1 o.2.2) l acc.2.2) := by
  induction l generalizing acc with
  | nil => rfl
  | cons o l ih =>
    rw [List.foldl_cons, limiter_body_3d_noskip_eq, ih, foldMin_cons, foldMin_cons,
      foldMin_cons]

/-- The nested loops of the 2D variant visit `stencil_2d` in order. -/
theorem scan_2d_noskip_eq_foldl (slopes : Fin 2 → K) :
    centroid_limiter_scan_2d_noskip i j k n state flag slopes ccent =
      stencil_2d.foldl
        (fun acc o =>
          limiter_body_2d_noskip i j k n state flag slopes ccent o.1 o.2.1 o.2.2 acc)
        (1, 1) := rfl

/-- The nested loops of the 3D variant visit `stencil_3d` in order. -/
theorem scan_3d_noskip_eq_foldl (slopes : Fin 3 → K) :
    centroid_limiter_scan_3d_noskip i j k n state flag slopes ccent =
      stencil_3d.foldl
        (fun acc o =>
          limiter_body_3d_noskip i j k n state flag slopes ccent o.1 o.2.1 o.2.2 acc)
        (1, 1, 1) := rfl

end

/-- C12: the variant of `amrex_calc_centroid_limiter` that drops the `alpha > 0.0`
condition and processes every connected offset returns the same scale vector as the
original, for every input (two and three dimensions). -/
theorem centroid_limiter_skip_unobservable (i j k n : Int) (state : Array4 K)
    (flag : FlagArray) (ccent : Array4 K) :
    (∀ slopes : Fin 2 → K,
      amrex_calc_centroid_limiter_2d_noskip i j k n state flag slopes ccent =
        amrex_calc_centroid_limiter_2d i j k n state flag slopes ccent) ∧
    (∀ slopes : Fin 3 → K,
      amrex_calc_centroid_limiter_3d_noskip i j k n state flag slopes ccent =
        amrex_calc_centroid_limiter_3d i j k n state flag slopes ccent) := by
  constructor
  · intro slopes
    funext a
    rw [limiter_2d_eq_foldMin]
    unfold amrex_calc_centroid_limiter_2d_noskip
    rw [scan_2d_noskip_eq_foldl, foldl_body_2d_noskip]
    fin_cases a <;> rfl
  · intro slopes
    funext a
    rw [limiter_3d_eq_foldMin]
    unfold amrex_calc_centroid_limiter_3d_noskip
    rw [scan_3d_noskip_eq_foldl, foldl_body_3d_noskip]
    fin_cases a <;> rfl

/-- C13: running the per-offset step of the limiter (pruning test included) over any
permutation of the 9 (2D) or 27 (3D) stencil offsets, starting from all scales `1`,
yields the same final scales as the `kk`/`jj`/`ii` order of
`amrex_calc_centroid_limiter`. -/
theorem centroid_limiter_order_independent (i j k n : Int) (state : Array4 K)
    (flag : FlagArray) (ccent : Array4 K) :
    (∀ (slopes : Fin 2 → K) (l : List (Int × Int × Int)), l.Perm stencil_2d →
      l.foldl
          (fun acc o => limiter_body_2d i j k n state flag slopes ccent o.1 o.2.1 o.2.2 acc)
          (1, 1) =
        centroid_limiter_scan_2d i j k n state flag slopes ccent) ∧
    (∀ (slopes : Fin 3 → K) (l : List (Int × Int × Int)), l.Perm stencil_3d →
      l.foldl
          (fun acc o => limiter_body_3d i j k n state flag slopes ccent o.1 o.2.1 o.2.2 acc)
          (1, 1, 1) =
        centroid_limiter_scan_3d i j k n state flag slopes ccent) := by
  constructor
  · intro slopes l h
    rw [scan_2d_eq_foldl,
      foldl_body_2d i j k n state flag ccent slopes l _ zero_le_one zero_le_one,
      foldl_body_2d i j k n state flag ccent slopes stencil_2d _ zero_le_one zero_le_one,
      foldMin_perm _ _ l stencil_2d _ h, foldMin_perm _ _ l stencil_2d _ h]
  · intro slopes l h
    rw [scan_3d_eq_foldl,
      foldl_body_3d i j k n state flag ccent slopes l _ zero_le_one zero_le_one zero_le_one,
      foldl_body_3d i j k n state flag ccent slopes stencil_3d _ zero_le_one zero_le_one
        zero_le_one,
      foldMin_perm _ _ l stencil_3d _ h, foldMin_perm _ _ l stencil_3d _ h,
      foldMin_perm _ _ l stencil_3d _ h]

/-- Witness of C13: the offsets taken in reverse order, on the inputs `ex_state`,
`ex_flag`, `ex_ccent` with gradients `(10,-10)` and `(10,-10,0)`. -/
theorem centroid_limiter_order_independent_witness :
    (stencil_2d.reverse.Perm stencil_2d ∧
      stencil_2d.reverse.foldl
          (fun acc o =>
            limiter_body_2d 0 0 0 0 ex_state ex_flag ex_slopes_2d ex_ccent o.1 o.2.1 o.2.2
              acc)
          (1, 1) =
        centroid_limiter_scan_2d 0 0 0 0 ex_state ex_flag ex_slopes_2d ex_ccent) ∧
    (stencil_3d.reverse.Perm stencil_3d ∧
      stencil_3d.reverse.foldl
          (fun acc o =>
            limiter_body_3d 0 0 0 0 ex_state ex_flag ex_slopes_3d ex_ccent o.1 o.2.1 o.2.2
              acc)
          (1, 1, 1) =
        centroid_limiter_scan_3d 0 0 0 0 ex_state ex_flag ex_slopes_3d ex_ccent) :=
  ⟨⟨List.reverse_perm _,
      (centroid_limiter_order_independent 0 0 0 0 ex_state ex_flag ex_ccent).1 ex_slopes_2d
        stencil_2d.reverse (List.reverse_perm _)⟩,
    ⟨List.reverse_perm _,
      (centroid_limiter_order_independent 0 0 0 0 ex_state ex_flag ex_ccent).2 ex_slopes_3d
        stencil_3d.reverse (List.reverse_perm _)⟩⟩

section
variable (i j k n : Int) (state : Array4 K) (flag : FlagArray) (ccent : Array4 K)

/-- One step of the 2D loop body never raises a scale, whatever the scales are. -/
theorem limiter_body_2d_le (slopes : Fin 2 → K) (ii jj kk : Int) (acc : K × K) :
    (limiter_body_2d i j k n state flag slopes ccent ii jj kk acc).1 ≤ acc.1 ∧
      (limiter_body_2d i j k n state flag slopes ccent ii jj kk acc).2 ≤ acc.2 := by
  unfold limiter_body_2d
  dsimp only
  split_ifs <;> simp

/-- One step of the 3D loop body never raises a scale, whatever the scales are. -/
theorem limiter_body_3d_le (slopes : Fin 3 → K) (ii jj kk : Int) (acc : K × K × K) :
    (limiter_body_3d i j k n state flag slopes ccent ii jj kk acc).1 ≤ acc.1 ∧
      (limiter_body_3d i j k n state flag slopes ccent ii jj kk acc).2.1 ≤ acc.2.1 ∧
      (limiter_body_3d i j k n state flag slopes ccent ii jj kk acc).2.2 ≤ acc.2.2 := by
  unfold limiter_body_3d
  dsimp only
  split_ifs <;> simp

/-- A scale equal to `0` is `0` after one step of the 2D loop body. -/
theorem limiter_body_2d_zero (slopes : Fin 2 → K) (ii jj kk : Int) (acc : K × K) :
    (acc.1 = 0 → (limiter_body_2d i j k n state flag slopes ccent ii jj kk acc).1 = 0) ∧
      (acc.2 = 0 →
        (limiter_body_2d i j k n state flag slopes ccent ii jj kk acc).2 = 0) := by
  have hl := new_lim_2d_nonneg i j k n state ccent slopes ii jj kk
  unfold new_lim_2d at hl
  unfold limiter_body_2d
  dsimp only
  constructor <;> intro h <;> split_ifs <;> simp [h, hl]

/-- A scale equal to `0` is `0` after one step of the 3D loop body. -/
theorem limiter_body_3d_zero (slopes : Fin 3 → K) (ii jj kk : Int) (acc : K × K × K) :
    (acc.1 = 0 → (limiter_body_3d i j k n state flag slopes ccent ii jj kk acc).1 = 0) ∧
      (acc.2.1 = 0 →
        (limiter_body_3d i j k n state flag slopes ccent ii jj kk acc).2.1 = 0) ∧
      (acc.2.2 = 0 →
        (limiter_body_3d i j k n state flag slopes ccent ii jj kk acc).2.2 = 0) := by
  have hl := new_lim_3d_nonneg i j k n state ccent slopes ii jj kk
  unfold new_lim_3d at hl
  unfold limiter_body_3d
  dsimp only
  refine ⟨?_, ?_, ?_⟩ <;> intro h <;> split_ifs <;> simp [h, hl]

/-- A scale equal to `0` is `0` after the 2D loop body has run over any list of
offsets. -/
theorem foldl_body_2d_zero (slopes : Fin 2 → K) (l : List (Int × Int × Int))
    (acc : K × K) :
    (acc.1 = 0 →
        (l.foldl
          (fun acc o => limiter_body_2d i j k n state flag slopes ccent o.1 o.2.1 o.2.2 acc)
          acc).1 = 0) ∧
      (acc.2 = 0 →
        (l.foldl
          (fun acc o => limiter_body_2d i j k n state flag slopes ccent o.1 o.2.1 o.2.2 acc)
          acc).2 = 0) := by
  induction l generalizing acc with
  | nil => exact ⟨fun h => h, fun h => h⟩
  | cons o l ih =>
    have hb := limiter_body_2d_zero i j k n state flag ccent slopes o.1 o.2.1 o.2.2 acc
    rw [List.foldl_cons]
    exact ⟨fun h => (ih _).1 (hb.1 h), fun h => (ih _).2 (hb.2 h)⟩

/-- A scale equal to `0` is `0` after the 3D loop body has run over any list of
offsets. -/
theorem foldl_body_3d_zero (slopes : Fin 3 → K) (l : List (Int × Int × Int))
    (acc : K × K × K) :
    (acc.1 = 0 →
        (l.foldl
          (fun acc o => limiter_body_3d i j k n state flag slopes ccent o.1 o.2.1 o.2.2 acc)
          acc).1 = 0) ∧
      (acc.2.1 = 0 →
        (l.foldl
          (fun acc o => limiter_body_3d i j k n state flag slopes ccent o.1 o.2.1 o.2.2 acc)
          acc).2.1 = 0) ∧
      (acc.2.2 = 0 →
        (l.foldl
          (fun acc o => limiter_body_3d i j k n state flag slopes ccent o.1 o.2.1 o.2.2 acc)
          acc).2.2 = 0) := by
  induction l generalizing acc with
  | nil => exact ⟨fun h => h, fun h => h, fun h => h⟩
  | cons o l ih =>
    have hb := limiter_body_3d_zero i j k n state flag ccent slopes o.1 o.2.1 o.2.2 acc
    rw [List.foldl_cons]
    exact ⟨fun h => (ih _).1 (hb.1 h), fun h => (ih _).2.1 (hb.2.1 h),
      fun h => (ih _).2.2 (hb.2.2 h)⟩

/-- The locals after `m + d` offsets are obtained from those after `m` offsets by
running the 2D loop body over the next `d` offsets. -/
theorem prefix_2d_add (slopes : Fin 2 → K) (m d : Nat) :
    centroid_limiter_prefix_2d i j k n state flag slopes ccent (m + d) =
      ((stencil_2d.drop m).take d).foldl
        (fun acc o => limiter_body_2d i j k n state flag slopes ccent o.1 o.2.1 o.2.2 acc)
        (centroid_limiter_prefix_2d i j k n state flag slopes ccent m) := by
  unfold centroid_limiter_prefix_2d
  rw [List.take_add, List.foldl_append]

/-- The locals after `m + d` offsets are obtained from those after `m` offsets by
running the 3D loop body over the next `d` offsets. -/
theorem prefix_3d_add (slopes : Fin 3 → K) (m d : Nat) :
    centroid_limiter_prefix_3d i j k n state flag slopes ccent (m + d) =
      ((stencil_3d.drop m).take d).foldl
        (fun acc o => limiter_body_3d i j k n state flag slopes ccent o.1 o.2.1 o.2.2 acc)
        (centroid_limiter_prefix_3d i j k n state flag slopes ccent m) := by
  unfold centroid_limiter_prefix_3d
  rw [List.take_add, List.foldl_append]

/-- The final locals of the 2D scan are obtained from those after `m` offsets by
running the loop body over the remaining offsets. -/
theorem scan_2d_eq_prefix (slopes : Fin 2 → K) (m : Nat) :
    centroid_limiter_scan_2d i j k n state flag slopes ccent =
      (stencil_2d.drop m).foldl
        (fun acc o => limiter_body_2d i j k n state flag slopes ccent o.1 o.2.1 o.2.2 acc)
        (centroid_limiter_prefix_2d i j k n state flag slopes ccent m) := by
  unfold centroid_limiter_prefix_2d
  rw [← List.foldl_append, List.take_append_drop, scan_2d_eq_foldl]

/-- The final locals of the 3D scan are obtained from those after `m` offsets by
running the loop body over the remaining offsets. -/
theorem scan_3d_eq_prefix (slopes : Fin 3 → K) (m : Nat) :
    centroid_limiter_scan_3d i j k n state flag slopes ccent =
      (stencil_3d.drop m).foldl
        (fun acc o => limiter_body_3d i j k n state flag slopes ccent o.1 o.2.1 o.2.2 acc)
        (centroid_limiter_prefix_3d i j k n state flag slopes ccent m) := by
  unfold centroid_limiter_prefix_3d
  rw [← List.foldl_append, List.take_append_drop, scan_3d_eq_foldl]

end

/-- C14: in `amrex_calc_centroid_limiter`, processing any single stencil offset leaves
each axis scale less than or equal to its value before that offset; an axis whose
scale is `0` after the first `m` offsets is `0` after every later offset and in the
returned vector (two and three dimensions). -/
theorem centroid_limiter_zero_floor (i j k n : Int) (state : Array4 K)
    (flag : FlagArray) (ccent : Array4 K) :
    (∀ slopes : Fin 2 → K,
      (∀ (ii jj kk : Int) (acc : K × K),
        (limiter_body_2d i j k n state flag slopes ccent ii jj kk acc).1 ≤ acc.1 ∧
          (limiter_body_2d i j k n state flag slopes ccent ii jj kk acc).2 ≤ acc.2) ∧
      (∀ m d : Nat,
        ((centroid_limiter_prefix_2d i j k n state flag slopes ccent m).1 = 0 →
          (centroid_limiter_prefix_2d i j k n state flag slopes ccent (m + d)).1 = 0 ∧
            amrex_calc_centroid_limiter_2d i j k n state flag slopes ccent 0 = 0) ∧
        ((centroid_limiter_prefix_2d i j k n state flag slopes ccent m).2 = 0 →
          (centroid_limiter_prefix_2d i j k n state flag slopes ccent (m + d)).2 = 0 ∧
            amrex_calc_centroid_limiter_2d i j k n state flag slopes ccent 1 = 0))) ∧
    (∀ slopes : Fin 3 → K,
      (∀ (ii jj kk : Int) (acc : K × K × K),
        (limiter_body_3d i j k n state flag slopes ccent ii jj kk acc).1 ≤ acc.1 ∧
          (limiter_body_3d i j k n state flag slopes ccent ii jj kk acc).2.1 ≤ acc.2.1 ∧
          (limiter_body_3d i j k n state flag slopes ccent ii jj kk acc).2.2 ≤ acc.2.2) ∧
      (∀ m d : Nat,
        ((centroid_limiter_prefix_3d i j k n state flag slopes ccent m).1 = 0 →
          (centroid_limiter_prefix_3d i j k n state flag slopes ccent (m + d)).1 = 0 ∧
            amrex_calc_centroid_limiter_3d i j k n state flag slopes ccent 0 = 0) ∧
        ((centroid_limiter_prefix_3d i j k n state flag slopes ccent m).2.1 = 0 →
          (centroid_limiter_prefix_3d i j k n state flag slopes ccent (m + d)).2.1 = 0 ∧
            amrex_calc_centroid_limiter_3d i j k n state flag slopes ccent 1 = 0) ∧
        ((centroid_limiter_prefix_3d i j k n state flag slopes ccent m).2.2 = 0 →
          (centroid_limiter_prefix_3d i j k n state flag slopes ccent (m + d)).2.2 = 0 ∧
            amrex_calc_centroid_limiter_3d i j k n state flag slopes ccent 2 = 0))) := by
  constructor
  · intro slopes
    refine ⟨fun ii jj kk acc =>
      limiter_body_2d_le i j k n state flag ccent slopes ii jj kk acc, ?_⟩
    intro m d
    have hp := foldl_body_2d_zero i j k n state flag ccent slopes
      ((stencil_2d.drop m).take d)
      (centroid_limiter_prefix_2d i j k n state flag slopes ccent m)
    have hs := foldl_body_2d_zero i j k n state flag ccent slopes (stencil_2d.drop m)
      (centroid_limiter_prefix_2d i j k n state flag slopes ccent m)
    rw [← prefix_2d_add] at hp
    rw [← scan_2d_eq_prefix] at hs
    exact ⟨fun h => ⟨hp.1 h, hs.1 h⟩, fun h => ⟨hp.2 h, hs.2 h⟩⟩
  · intro slopes
    refine ⟨fun ii jj kk acc =>
      limiter_body_3d_le i j k n state flag ccent slopes ii jj kk acc, ?_⟩
    intro m d
    have hp := foldl_body_3d_zero i j k n state flag ccent slopes
      ((stencil_3d.drop m).take d)
      (centroid_limiter_prefix_3d i j k n state flag slopes ccent m)
    have hs := foldl_body_3d_zero i j k n state flag ccent slopes (stencil_3d.drop m)
      (centroid_limiter_prefix_3d i j k n state flag slopes ccent m)
    rw [← prefix_3d_add] at hp
    rw [← scan_3d_eq_prefix] at hs
    exact ⟨fun h => ⟨hp.1 h, hs.1 h⟩, fun h => ⟨hp.2.1 h, hs.2.1 h⟩,
      fun h => ⟨hp.2.2 h, hs.2.2 h⟩⟩

/-- Witness of C14: constant field `1`, every offset connected, regular cells,
gradients `(1,1)` and `(1,1,1)`; the x scale is `0` after the first offset, after
four offsets, and in the returned vector. -/
theorem centroid_limiter_zero_floor_witness :
    ((centroid_limiter_prefix_2d 0 0 0 0 const_state all_connected diag_slopes_2d
          ex_ccent 1).1 = 0 ∧
      (centroid_limiter_prefix_2d 0 0 0 0 const_state all_connected diag_slopes_2d
          ex_ccent (1 + 3)).1 = 0 ∧
      amrex_calc_centroid_limiter_2d 0 0 0 0 const_state all_connected diag_slopes_2d
        ex_ccent 0 = 0) ∧
    ((centroid_limiter_prefix_3d 0 0 0 0 const_state all_connected diag_slopes_3d
          ex_ccent 1).1 = 0 ∧
      (centroid_limiter_prefix_3d 0 0 0 0 const_state all_connected diag_slopes_3d
          ex_ccent (1 + 3)).1 = 0 ∧
      amrex_calc_centroid_limiter_3d 0 0 0 0 const_state all_connected diag_slopes_3d
        ex_ccent 0 = 0) :=
  ⟨⟨by decide!,
      ((((centroid_limiter_zero_floor 0 0 0 0 const_state all_connected ex_ccent).1
        diag_slopes_2d).2 1 3).1 (by decide!))⟩,
    ⟨by decide!,
      ((((centroid_limiter_zero_floor 0 0 0 0 const_state all_connected ex_ccent).2
        diag_slopes_3d).2 1 3).1 (by decide!))⟩⟩

/-! ## Guarded division in the bound-ratio evaluator -/

/-- C15: whenever `|q_hat - state| ≤ 1e-12 * max(|q_max|, |q_min|)` neither dividing
branch of `amrex_calc_alpha_stencil` is taken and the result is `1`; in both dividing
branches the divisor `q_hat - state` is non-zero; the evaluator with guarded division
never reports a division error and agrees with `amrex_calc_alpha_stencil`. -/
theorem alpha_stencil_division_guard (q_hat q_max q_min state : K) :
    (|q_hat - state| ≤ epsilon * max |q_max| |q_min| →
      ¬ (q_hat - state > epsilon * max |q_max| |q_min|) ∧
        ¬ (q_hat - state < -(epsilon * max |q_max| |q_min|)) ∧
        amrex_calc_alpha_stencil q_hat q_max q_min state = 1 ∧
        amrex_calc_alpha_stencil_checked q_hat q_max q_min state = some 1) ∧
    (q_hat - state > epsilon * max |q_max| |q_min| → q_hat - state ≠ 0) ∧
    (q_hat - state < -(epsilon * max |q_max| |q_min|) → q_hat - state ≠ 0) ∧
    amrex_calc_alpha_stencil_checked q_hat q_max q_min state ≠ none ∧
    amrex_calc_alpha_stencil_checked q_hat q_max q_min state =
      some (amrex_calc_alpha_stencil q_hat q_max q_min state) := by
  have hs := small_nonneg q_max q_min
  have hpos : q_hat - state > epsilon * max |q_max| |q_min| → q_hat - state ≠ 0 :=
    fun h => ne_of_gt (lt_of_le_of_lt hs h)
  have hneg : q_hat - state < -(epsilon * max |q_max| |q_min|) → q_hat - state ≠ 0 :=
    fun h => ne_of_lt (by linarith)
  have hagree : amrex_calc_alpha_stencil_checked q_hat q_max q_min state =
      some (amrex_calc_alpha_stencil q_hat q_max q_min state) := by
    unfold amrex_calc_alpha_stencil_checked amrex_calc_alpha_stencil checked_div
    dsimp only
    split_ifs with ha hz hb hz
    · exact absurd hz (hpos ha)
    · rfl
    · exact absurd hz (hneg hb)
    · rfl
    · rfl
  refine ⟨?_, hpos, hneg, ?_, hagree⟩
  · intro h
    obtain ⟨hlo, hhi⟩ := abs_le.1 h
    have e : amrex_calc_alpha_stencil q_hat q_max q_min state = 1 := by
      unfold amrex_calc_alpha_stencil
      dsimp only
      rw [if_neg (not_lt.2 hhi), if_neg (not_lt.2 hlo)]
    refine ⟨not_lt.2 hhi, not_lt.2 hlo, e, ?_⟩
    rw [hagree, e]
  · rw [hagree]
    exact Option.some_ne_none _

/-- Witness of C15: at `q_hat = state = 1/2` with bounds `[0,1]` the guard holds and
the result is `1`; at `q_hat = 2` the first dividing branch is taken with divisor
`3/2`. -/
theorem alpha_stencil_division_guard_witness :
    (|(1 / 2 : ℚ) - 1 / 2| ≤ epsilon * max |(1 : ℚ)| |(0 : ℚ)| ∧
      amrex_calc_alpha_stencil (1 / 2 : ℚ) 1 0 (1 / 2) = 1 ∧
      amrex_calc_alpha_stencil_checked (1 / 2 : ℚ) 1 0 (1 / 2) = some 1) ∧
    ((2 : ℚ) - 1 / 2 > epsilon * max |(1 : ℚ)| |(0 : ℚ)| ∧ (2 : ℚ) - 1 / 2 ≠ 0) :=
  ⟨⟨by decide!,
      ((alpha_stencil_division_guard (1 / 2 : ℚ) 1 0 (1 / 2)).1 (by decide!)).2.2⟩,
    ⟨by decide!, (alpha_stencil_division_guard (2 : ℚ) 1 0 (1 / 2)).2.1 (by decide!)⟩⟩

/-! ## Soundness of uniform scaling and the no-violation identity -/

/-- A prediction inside the pairwise bounds passes the bounds test. -/
theorem not_out_of_bounds (q_hat q_max q_min : K) (h1 : q_min ≤ q_hat)
    (h2 : q_hat ≤ q_max) : ¬ out_of_bounds q_hat q_max q_min := by
  unfold out_of_bounds
  have a1 := abs_nonneg (epsilon * q_max)
  have a2 := abs_nonneg (epsilon * q_min)
  rintro (h | h)
  · linarith
  · linarith

/-- C17: if for every connected stencil offset the unlimited prediction satisfies
`q_min ≤ q_hat ≤ q_max` for that neighbour pair, `amrex_calc_centroid_limiter` returns
`1` on every axis; in particular it returns all `1` for the zero gradient, for every
field, flag and centroid input (two and three dimensions). -/
theorem centroid_limiter_no_violation (i j k n : Int) (state : Array4 K)
    (flag : FlagArray) (ccent : Array4 K) :
    ((∀ slopes : Fin 2 → K,
        (∀ ii ∈ loop_range, ∀ jj ∈ loop_range, (flag i j k).isConnected ii jj 0 = true →
          q_min i j k n state ii jj 0 ≤ q_hat_2d i j k n state slopes ccent ii jj 0 ∧
            q_hat_2d i j k n state slopes ccent ii jj 0 ≤ q_max i j k n state ii jj 0) →
        ∀ a : Fin 2,
          amrex_calc_centroid_limiter_2d i j k n state flag slopes ccent a = 1) ∧
      ∀ a : Fin 2,
        amrex_calc_centroid_limiter_2d i j k n state flag (fun _ => 0) ccent a = 1) ∧
    ((∀ slopes : Fin 3 → K,
        (∀ ii ∈ loop_range, ∀ jj ∈ loop_range, ∀ kk ∈ loop_range,
          (flag i j k).isConnected ii jj kk = true →
          q_min i j k n state ii jj kk ≤ q_hat_3d i j k n state slopes ccent ii jj kk ∧
            q_hat_3d i j k n state slopes ccent ii jj kk ≤
              q_max i j k n state ii jj kk) →
        ∀ a : Fin 3,
          amrex_calc_centroid_limiter_3d i j k n state flag slopes ccent a = 1) ∧
      ∀ a : Fin 3,
        amrex_calc_centroid_limiter_3d i j k n state flag (fun _ => 0) ccent a = 1) := by
  have g2 : ∀ slopes : Fin 2 → K,
      (∀ ii ∈ loop_range, ∀ jj ∈ loop_range, (flag i j k).isConnected ii jj 0 = true →
        q_min i j k n state ii jj 0 ≤ q_hat_2d i j k n state slopes ccent ii jj 0 ∧
          q_hat_2d i j k n state slopes ccent ii jj 0 ≤ q_max i j k n state ii jj 0) →
      ∀ a : Fin 2,
        amrex_calc_centroid_limiter_2d i j k n state flag slopes ccent a = 1 := by
    intro slopes h a
    rw [limiter_2d_eq_foldMin]
    apply foldMin_eq_init
    rintro ⟨ii, jj, kk⟩ ho ⟨hc, hv, _⟩
    obtain ⟨hi, hj, rfl⟩ := (mem_stencil_2d ii jj kk).1 ho
    obtain ⟨h1, h2⟩ := h ii hi jj hj hc
    exact absurd hv (not_out_of_bounds _ _ _ h1 h2)
  have g3 : ∀ slopes : Fin 3 → K,
      (∀ ii ∈ loop_range, ∀ jj ∈ loop_range, ∀ kk ∈ loop_range,
        (flag i j k).isConnected ii jj kk = true →
        q_min i j k n state ii jj kk ≤ q_hat_3d i j k n state slopes ccent ii jj kk ∧
          q_hat_3d i j k n state slopes ccent ii jj kk ≤ q_max i j k n state ii jj kk) →
      ∀ a : Fin 3,
        amrex_calc_centroid_limiter_3d i j k n state flag slopes ccent a = 1 := by
    intro slopes h a
    rw [limiter_3d_eq_foldMin]
    apply foldMin_eq_init
    rintro ⟨ii, jj, kk⟩ ho ⟨hc, hv, _⟩
    obtain ⟨hi, hj, hk⟩ := (mem_stencil_3d ii jj kk).1 ho
    obtain ⟨h1, h2⟩ := h ii hi jj hj kk hk hc
    exact absurd hv (not_out_of_bounds _ _ _ h1 h2)
  refine ⟨⟨g2, ?_⟩, ⟨g3, ?_⟩⟩
  · apply g2
    intro ii _ jj _ _
    have e : q_hat_2d i j k n state (fun _ => 0) ccent ii jj 0 = state i j k n := by
      unfold q_hat_2d
      simp
    rw [e]
    exact ⟨q_min_le_state i j k n state ii jj 0, state_le_q_max i j k n state ii jj 0⟩
  · apply g3
    intro ii _ jj _ kk _ _
    have e : q_hat_3d i j k n state (fun _ => 0) ccent ii jj kk = state i j k n := by
      unfold q_hat_3d
      simp
    rw [e]
    exact ⟨q_min_le_state i j k n state ii jj kk, state_le_q_max i j k n state ii jj kk⟩

/-- Witness of C17: field `diag_state`, flag `diag_flag`, regular cells, gradients
`(1/4,1/4)` and `(1/4,1/4,1/4)`; every connected prediction lies between `0` and `1`
and the x scale is `1`. -/
theorem centroid_limiter_no_violation_witness :
    ((∀ ii ∈ loop_range, ∀ jj ∈ loop_range, (diag_flag 0 0 0).isConnected ii jj 0 = true →
        q_min 0 0 0 0 diag_state ii jj 0 ≤
            q_hat_2d 0 0 0 0 diag_state quarter_slopes_2d ex_ccent ii jj 0 ∧
          q_hat_2d 0 0 0 0 diag_state quarter_slopes_2d ex_ccent ii jj 0 ≤
            q_max 0 0 0 0 diag_state ii jj 0) ∧
      amrex_calc_centroid_limiter_2d 0 0 0 0 diag_state diag_flag quarter_slopes_2d
        ex_ccent 0 = 1) ∧
    ((∀ ii ∈ loop_range, ∀ jj ∈ loop_range, ∀ kk ∈ loop_range,
        (diag_flag 0 0 0).isConnected ii jj kk = true →
        q_min 0 0 0 0 diag_state ii jj kk ≤
            q_hat_3d 0 0 0 0 diag_state quarter_slopes_3d ex_ccent ii jj kk ∧
          q_hat_3d 0 0 0 0 diag_state quarter_slopes_3d ex_ccent ii jj kk ≤
            q_max 0 0 0 0 diag_state ii jj kk) ∧
      amrex_calc_centroid_limiter_3d 0 0 0 0 diag_state diag_flag quarter_slopes_3d
        ex_ccent 0 = 1) :=
  ⟨⟨by decide!,
      (centroid_limiter_no_violation 0 0 0 0 diag_state diag_flag ex_ccent).1.1
        quarter_slopes_2d (by decide!) 0⟩,
    ⟨by decide!,
      (centroid_limiter_no_violation 0 0 0 0 diag_state diag_flag ex_ccent).2.1
        quarter_slopes_3d (by decide!) 0⟩⟩

/-- C18: in `amrex_calc_centroid_limiter` the offset `(0,0,0)` has `delta = 0` on every
axis and `q_hat = q_max = q_min = state(cell)`, the bounds test of line 69 does not
fire there, and the loop body leaves every axis scale unchanged, whatever the flag
reports for that offset (two and three dimensions). -/
theorem centroid_limiter_zero_offset (i j k n : Int) (state : Array4 K)
    (flag : FlagArray) (ccent : Array4 K) :
    (∀ slopes : Fin 2 → K,
      (∀ a : Fin 2, delta_2d i j k ccent 0 0 0 a = 0) ∧
      q_hat_2d i j k n state slopes ccent 0 0 0 = state i j k n ∧
      q_max i j k n state 0 0 0 = state i j k n ∧
      q_min i j k n state 0 0 0 = state i j k n ∧
      ¬ out_of_bounds (q_hat_2d i j k n state slopes ccent 0 0 0)
          (q_max i j k n state 0 0 0) (q_min i j k n state 0 0 0) ∧
      ∀ acc : K × K, limiter_body_2d i j k n state flag slopes ccent 0 0 0 acc = acc) ∧
    (∀ slopes : Fin 3 → K,
      (∀ a : Fin 3, delta_3d i j k ccent 0 0 0 a = 0) ∧
      q_hat_3d i j k n state slopes ccent 0 0 0 = state i j k n ∧
      q_max i j k n state 0 0 0 = state i j k n ∧
      q_min i j k n state 0 0 0 = state i j k n ∧
      ¬ out_of_bounds (q_hat_3d i j k n state slopes ccent 0 0 0)
          (q_max i j k n state 0 0 0) (q_min i j k n state 0 0 0) ∧
      ∀ acc : K × K × K,
        limiter_body_3d i j k n state flag slopes ccent 0 0 0 acc = acc) := by
  have dx : delta_x i j k ccent 0 0 0 = 0 := by unfold delta_x; simp
  have dy : delta_y i j k ccent 0 0 0 = 0 := by unfold delta_y; simp
  have dz : delta_z i j k ccent 0 0 0 = 0 := by unfold delta_z; simp
  have hM : q_max i j k n state 0 0 0 = state i j k n := by unfold q_max; simp
  have hm : q_min i j k n state 0 0 0 = state i j k n := by unfold q_min; simp
  constructor
  · intro slopes
    have hq : q_hat_2d i j k n state slopes ccent 0 0 0 = state i j k n := by
      unfold q_hat_2d; rw [dx, dy]; ring
    have hno : ¬ out_of_bounds (q_hat_2d i j k n state slopes ccent 0 0 0)
        (q_max i j k n state 0 0 0) (q_min i j k n state 0 0 0) :=
      not_out_of_bounds _ _ _ (by rw [hq, hm]) (by rw [hq, hM])
    refine ⟨?_, hq, hM, hm, hno, ?_⟩
    · intro a
      fin_cases a
      · exact dx
      · exact dy
    · intro acc
      unfold limiter_body_2d
      dsimp only
      rw [if_neg hno]
      split_ifs <;> rfl
  · intro slopes
    have hq : q_hat_3d i j k n state slopes ccent 0 0 0 = state i j k n := by
      unfold q_hat_3d; rw [dx, dy, dz]; ring
    have hno : ¬ out_of_bounds (q_hat_3d i j k n state slopes ccent 0 0 0)
        (q_max i j k n state 0 0 0) (q_min i j k n state 0 0 0) :=
      not_out_of_bounds _ _ _ (by rw [hq, hm]) (by rw [hq, hM])
    refine ⟨?_, hq, hM, hm, hno, ?_⟩
    · intro a
      fin_cases a
      · exact dx
      · exact dy
      · exact dz
    · intro acc
      unfold limiter_body_3d
      dsimp only
      rw [if_neg hno]
      split_ifs <;> rfl

/-! ## Double precision: rounding in the prediction -/

/-- In double precision the limiter run again on a gradient limited by a scale shared
by both axes need not return `1`: on the regular 2D cell `(0,0)` with value `1`, the
only connected neighbour `(1,1)` with value `0.3` and gradient `(-10000, 9999)`, the
first run returns `0.7` on both axes and the second run, on the rounded products
`scale * gradient`, returns `0.9999999999989605`. -/
theorem centroid_limiter_double_rerun_below_one :
    amrex_calc_centroid_limiter_2d_fp 0 0 0 0 unit_state diag_flag crossing_slopes ex_ccent 0
      = 3152519739159347 / 4503599627370496 ∧
    amrex_calc_centroid_limiter_2d_fp 0 0 0 0 unit_state diag_flag crossing_slopes ex_ccent 1
      = 3152519739159347 / 4503599627370496 ∧
    amrex_calc_centroid_limiter_2d_fp 0 0 0 0 unit_state diag_flag
        (fun a =>
          fl (amrex_calc_centroid_limiter_2d_fp 0 0 0 0 unit_state diag_flag crossing_slopes
            ex_ccent a * crossing_slopes a))
        ex_ccent 0
      = 9007199254731629 / 9007199254740992 := by
  decide!

end HydroSlopeLimiter
